import Mathlib

/-!
Shallow embedding of the book-buddy server transaction workflow.

Sources embedded here:
- server/src/controllers/transactionControllers.ts (createTransaction, updateTransaction)
- server/src/controllers/bookControllers.ts (updateBook)
- server/src/common/transactionValidator.ts (createTransactionSchema, updateTransactionSchema)
- server/src/common/bookValidator.ts (bookSchema)
- server/src/db/schema.ts (books, transactions tables)

Modelling conventions:
- The database is a pair of lists (books, transactions); a SQL UPDATE ... WHERE id = x
  is a map over the list touching every row whose id matches, and a SELECT ... LIMIT 1
  is List.find?.
- Machine integers (postgres integer ids) are Nat; timestamps are not modelled since no
  control flow reads them.
- Each controller returns the post-state together with Except: every error return in the
  source precedes every database write, so an error result carries the unchanged state.
- The authentication middleware is external; the verified actor id (req.user.userId) is
  passed as a plain argument, and the 401 path is out of scope.
- The zod layer is modelled by createInputOk (createTransactionSchema with its refine)
  and bookUpdateValid (bookSchema.partial()); the url() check on coverImage is abstracted
  to no constraint because no claim depends on it.
-/

/-- transaction_status postgres enum from schema.ts. -/
inductive TxStatus where
  | available
  | pending
  | approved
  | rejected
  | shared
deriving DecidableEq, Repr

/-- transaction_type postgres enum from schema.ts. -/
inductive BType where
  | Free
  | Exchange
deriving DecidableEq, Repr

/-- A row of the books table (schema.ts). The status column is varchar, kept as String. -/
structure Book where
  id : Nat
  title : String
  author : String
  genre : String
  ageGroup : String
  coverImage : String
  availabilityType : BType
  status : String
  ownerId : Nat
deriving DecidableEq, Repr

/-- A row of the transactions table (schema.ts). -/
structure Txn where
  id : Nat
  requesterId : Nat
  requestedBookId : Nat
  ownerId : Nat
  type : BType
  offeredBookId : Option Nat
  status : TxStatus
deriving DecidableEq, Repr

/-- The portion of the database state the transaction workflow reads and writes. -/
structure DB where
  books : List Book
  transactions : List Txn
deriving DecidableEq, Repr

/-- One constructor per distinct error response site in the embedded controllers. -/
inductive ApiError where
  | validationFailed
  | invalidId
  | bookNotFound
  | bookNotAvailable
  | ownerMismatch
  | offeredRequired
  | offeredNotFound
  | offeredNotOwned
  | offeredNotAvailable
  | sameBook
  | ownBook
  | typeMismatch
  | duplicatePending
  | txnNotFound
  | notOwner
  | notPending
  | invalidStatusValue
  | updBookNotFound
  | updNotOwner
  | updValidationFailed
deriving DecidableEq, Repr

/-- HTTP status code each error site responds with in the source. -/
def httpStatus : ApiError → Nat
  | .validationFailed => 400
  | .invalidId => 400
  | .bookNotFound => 404
  | .bookNotAvailable => 400
  | .ownerMismatch => 400
  | .offeredRequired => 400
  | .offeredNotFound => 404
  | .offeredNotOwned => 403
  | .offeredNotAvailable => 400
  | .sameBook => 400
  | .ownBook => 400
  | .typeMismatch => 400
  | .duplicatePending => 400
  | .txnNotFound => 404
  | .notOwner => 403
  | .notPending => 400
  | .invalidStatusValue => 400
  | .updBookNotFound => 404
  | .updNotOwner => 403
  | .updValidationFailed => 400

/-- Error taxonomy of spec section 7. -/
inductive ErrClass where
  | validation
  | notFound
  | forbidden
  | conflict
deriving DecidableEq, Repr

/-- Classification of each error site per the spec taxonomy: state-precondition
violations (not available, duplicate pending, already resolved) are conflicts,
404 sites are notFound, 403 sites are forbidden, the rest are validation. -/
def errClass : ApiError → ErrClass
  | .validationFailed => .validation
  | .invalidId => .validation
  | .bookNotFound => .notFound
  | .bookNotAvailable => .conflict
  | .ownerMismatch => .validation
  | .offeredRequired => .validation
  | .offeredNotFound => .notFound
  | .offeredNotOwned => .forbidden
  | .offeredNotAvailable => .conflict
  | .sameBook => .validation
  | .ownBook => .validation
  | .typeMismatch => .validation
  | .duplicatePending => .conflict
  | .txnNotFound => .notFound
  | .notOwner => .forbidden
  | .notPending => .conflict
  | .invalidStatusValue => .validation
  | .updBookNotFound => .notFound
  | .updNotOwner => .forbidden
  | .updValidationFailed => .validation

/-- SELECT from books WHERE id = bid LIMIT 1. -/
def findBook (s : DB) (bid : Nat) : Option Book :=
  s.books.find? (fun b => b.id == bid)

/-- SELECT from transactions WHERE id = tid LIMIT 1. -/
def findTxn (s : DB) (tid : Nat) : Option Txn :=
  s.transactions.find? (fun t => t.id == tid)

/-- Row function of UPDATE books SET status WHERE id = bid. -/
def updBook (bid : Nat) (st : String) (b : Book) : Book :=
  if b.id = bid then { b with status := st } else b

/-- UPDATE books SET status WHERE id = bid. -/
def setBookStatus (s : DB) (bid : Nat) (st : String) : DB :=
  { s with books := s.books.map (updBook bid st) }

/-- Row function of UPDATE transactions SET status WHERE id = tid. -/
def updTxn (tid : Nat) (st : TxStatus) (t : Txn) : Txn :=
  if t.id = tid then { t with status := st } else t

/-- UPDATE transactions SET status WHERE id = tid. -/
def setTxnStatus (s : DB) (tid : Nat) (st : TxStatus) : DB :=
  { s with transactions := s.transactions.map (updTxn tid st) }

/-- The id the identity column assigns to a freshly inserted transaction row:
any value strictly larger than every existing id. -/
def nextTxnId (s : DB) : Nat :=
  (s.transactions.map (fun t => t.id)).foldr max 0 + 1

/-- Body of the POST /transactions request after express json parsing,
as typed by createTransactionSchema. -/
structure CreateTxInput where
  requestedBookId : Nat
  ownerId : Nat
  type : BType
  offeredBookId : Option Nat
deriving DecidableEq, Repr

/-- createTransactionSchema from transactionValidator.ts: positive integer ids plus the
refine that Exchange requires an offered book and Free forbids one. -/
def createInputOk (i : CreateTxInput) : Bool :=
  decide (1 ≤ i.requestedBookId ∧ 1 ≤ i.ownerId ∧
    (∀ ob, i.offeredBookId = some ob → 1 ≤ ob) ∧
    (i.type = BType.Exchange → i.offeredBookId ≠ none) ∧
    (i.type = BType.Free → i.offeredBookId = none))

/-- The Exchange-only validation block of createTransaction
(transactionControllers.ts lines 82-127), returning the first failing check. -/
def exchangeCheck (s : DB) (userId : Nat) (i : CreateTxInput) : Option ApiError :=
  if i.type = BType.Exchange then
    match i.offeredBookId with
    | none => some .offeredRequired
    | some ob =>
      match findBook s ob with
      | none => some .offeredNotFound
      | some obk =>
        if obk.ownerId ≠ userId then some .offeredNotOwned
        else if obk.status ≠ "available" then some .offeredNotAvailable
        else if ob = i.requestedBookId then some .sameBook
        else none
  else none

/-- Does this user already have a pending transaction for this book
(transactionControllers.ts lines 145-156)? -/
def hasDuplicatePending (s : DB) (userId : Nat) (bid : Nat) : Bool :=
  s.transactions.any (fun t =>
    decide (t.requesterId = userId ∧ t.requestedBookId = bid ∧ t.status = TxStatus.pending))

/-- The row inserted by createTransaction (transactionControllers.ts lines 167-177). -/
def newTxnOf (s : DB) (userId : Nat) (i : CreateTxInput) : Txn :=
  { id := nextTxnId s
    requesterId := userId
    requestedBookId := i.requestedBookId
    ownerId := i.ownerId
    type := i.type
    offeredBookId := i.offeredBookId
    status := .pending }

/-- The write phase of createTransaction (lines 166-197): insert the new pending row,
set the requested book pending, and for an Exchange also set the offered book pending. -/
def createdState (s : DB) (userId : Nat) (i : CreateTxInput) : DB :=
  let s1 : DB := { s with transactions := s.transactions ++ [newTxnOf s userId i] }
  let s2 := setBookStatus s1 i.requestedBookId "pending"
  match i.type, i.offeredBookId with
  | BType.Exchange, some ob => setBookStatus s2 ob "pending"
  | _, _ => s2

/-- createTransaction from transactionControllers.ts, checks in source order:
schema, book exists, book available, owner matches, Exchange block, own book,
type matches, duplicate pending; then insert and set the involved books pending. -/
def createTransaction (s : DB) (userId : Nat) (i : CreateTxInput) :
    DB × Except ApiError Txn :=
  if ¬ createInputOk i then (s, .error .validationFailed)
  else
    match findBook s i.requestedBookId with
    | none => (s, .error .bookNotFound)
    | some book =>
      if book.status ≠ "available" then (s, .error .bookNotAvailable)
      else if book.ownerId ≠ i.ownerId then (s, .error .ownerMismatch)
      else
        match exchangeCheck s userId i with
        | some e => (s, .error e)
        | none =>
          if book.ownerId = userId then (s, .error .ownBook)
          else if book.availabilityType ≠ i.type then (s, .error .typeMismatch)
          else if hasDuplicatePending s userId i.requestedBookId then
            (s, .error .duplicatePending)
          else
            (createdState s userId i, .ok (newTxnOf s userId i))

/-- One iteration of the sibling-rejection loop in updateTransaction
(transactionControllers.ts lines 329-350): ot is the row snapshot from the
sibling query; a pending sibling other than the target is set rejected and
its offered book, when present, is set back to available. -/
def cascadeStep (tid : Nat) (s : DB) (ot : Txn) : DB :=
  if ot.id ≠ tid ∧ ot.status = TxStatus.pending then
    let s1 := setTxnStatus s ot.id .rejected
    match ot.offeredBookId with
    | some ob => setBookStatus s1 ob "available"
    | none => s1
  else s

/-- The whole sibling-rejection loop, folding cascadeStep over the queried snapshot. -/
def cascade (tid : Nat) (s : DB) (sibs : List Txn) : DB :=
  sibs.foldl (cascadeStep tid) s

/-- The approve write phase of updateTransaction (lines 306-350 and 366-373): set the
target row approved, query all rows with the same requestedBookId, run the sibling
cascade over that snapshot, then set the requested book approved. -/
def approvedState (s : DB) (txnId : Nat) (txn : Txn) : DB :=
  let s1 := setTxnStatus s txnId .approved
  let sibs := s1.transactions.filter (fun t => t.requestedBookId == txn.requestedBookId)
  let s2 := cascade txnId s1 sibs
  setBookStatus s2 txn.requestedBookId "approved"

/-- The reject write phase of updateTransaction (lines 306-314, 351-364 and 366-373):
set the target row rejected, set its offered book (when present) back to available,
then set the requested book available. -/
def rejectedState (s : DB) (txnId : Nat) (txn : Txn) : DB :=
  let s1 := setTxnStatus s txnId .rejected
  let s2 :=
    match txn.offeredBookId with
    | some ob => setBookStatus s1 ob "available"
    | none => s1
  setBookStatus s2 txn.requestedBookId "available"

/-- updateTransaction from transactionControllers.ts: id check, lookup with inner
join on the requested book, owner check against the joined book row, pending
check, decision-value check; then write the target status, run the sibling
cascade when approving (or release the offered book when rejecting), and
finally write the requested book status. -/
def updateTransaction (s : DB) (userId : Nat) (txnId : Nat) (status : TxStatus) :
    DB × Except ApiError Txn :=
  if txnId = 0 then (s, .error .invalidId)
  else
    match findTxn s txnId with
    | none => (s, .error .txnNotFound)
    | some txn =>
      match findBook s txn.requestedBookId with
      | none => (s, .error .txnNotFound)
      | some book =>
        if book.ownerId ≠ userId then (s, .error .notOwner)
        else if txn.status ≠ TxStatus.pending then (s, .error .notPending)
        else if status ≠ TxStatus.approved ∧ status ≠ TxStatus.rejected then
          (s, .error .invalidStatusValue)
        else if status = TxStatus.approved then
          (approvedState s txnId txn, .ok { txn with status := status })
        else
          (rejectedState s txnId txn, .ok { txn with status := status })

/-- Body of PATCH /books/:id as typed by bookSchema.partial() from bookValidator.ts:
every schema field optional, and the schema has no status field. -/
structure BookUpdateInput where
  title : Option String
  author : Option String
  genre : Option String
  ageGroup : Option String
  coverImage : Option String
  availabilityType : Option BType
  ownerId : Option Nat
deriving DecidableEq, Repr

/-- bookSchema.partial() field checks: length bounds on the text fields and
positivity of ownerId, applied only to fields that are present. The url()
refinement on coverImage is abstracted to no constraint. -/
def bookUpdateValid (i : BookUpdateInput) : Bool :=
  decide ((∀ v, i.title = some v → 2 ≤ v.length ∧ v.length ≤ 100) ∧
    (∀ v, i.author = some v → 2 ≤ v.length ∧ v.length ≤ 100) ∧
    (∀ v, i.genre = some v → 2 ≤ v.length ∧ v.length ≤ 50) ∧
    (∀ v, i.ageGroup = some v → 2 ≤ v.length ∧ v.length ≤ 10) ∧
    (∀ v, i.ownerId = some v → 1 ≤ v))

/-- The spread { ...validationResult.data } applied to a book row: each field present
in the body overwrites the column; status is not a schema field, so it is untouched. -/
def applyBookUpdate (i : BookUpdateInput) (b : Book) : Book :=
  { b with
    title := i.title.getD b.title
    author := i.author.getD b.author
    genre := i.genre.getD b.genre
    ageGroup := i.ageGroup.getD b.ageGroup
    coverImage := i.coverImage.getD b.coverImage
    availabilityType := i.availabilityType.getD b.availabilityType
    ownerId := i.ownerId.getD b.ownerId }

/-- updateBook from bookControllers.ts: id check, existence check, ownership check,
partial schema validation, then UPDATE books SET (validated fields) WHERE id. -/
def updateBook (s : DB) (userId : Nat) (bookId : Nat) (i : BookUpdateInput) :
    DB × Except ApiError Book :=
  if bookId = 0 then (s, .error .invalidId)
  else
    match findBook s bookId with
    | none => (s, .error .updBookNotFound)
    | some b =>
      if b.ownerId ≠ userId then (s, .error .updNotOwner)
      else if ¬ bookUpdateValid i then (s, .error .updValidationFailed)
      else
        let s1 : DB :=
          { s with books :=
              s.books.map (fun bk => if bk.id = bookId then applyBookUpdate i bk else bk) }
        (s1, .ok (applyBookUpdate i b))

/-! ### Component lemmas for the update helpers -/

theorem updBook_id (bid : Nat) (st : String) (b : Book) : (updBook bid st b).id = b.id := by
  unfold updBook
  split <;> rfl

theorem updBook_of_ne (bid : Nat) (st : String) (b : Book) (h : b.id ≠ bid) :
    updBook bid st b = b := by
  unfold updBook
  simp [h]

theorem updTxn_id (tid : Nat) (st : TxStatus) (t : Txn) : (updTxn tid st t).id = t.id := by
  unfold updTxn
  split <;> rfl

theorem updTxn_of_ne (tid : Nat) (st : TxStatus) (t : Txn) (h : t.id ≠ tid) :
    updTxn tid st t = t := by
  unfold updTxn
  simp [h]

theorem updTxn_requestedBookId (tid : Nat) (st : TxStatus) (t : Txn) :
    (updTxn tid st t).requestedBookId = t.requestedBookId := by
  unfold updTxn
  split <;> rfl

theorem updTxn_offeredBookId (tid : Nat) (st : TxStatus) (t : Txn) :
    (updTxn tid st t).offeredBookId = t.offeredBookId := by
  unfold updTxn
  split <;> rfl

theorem updTxn_requesterId (tid : Nat) (st : TxStatus) (t : Txn) :
    (updTxn tid st t).requesterId = t.requesterId := by
  unfold updTxn
  split <;> rfl

theorem setBookStatus_transactions (s : DB) (bid : Nat) (st : String) :
    (setBookStatus s bid st).transactions = s.transactions := rfl

theorem setTxnStatus_books (s : DB) (tid : Nat) (st : TxStatus) :
    (setTxnStatus s tid st).books = s.books := rfl

theorem setBookStatus_books (s : DB) (bid : Nat) (st : String) :
    (setBookStatus s bid st).books = s.books.map (updBook bid st) := rfl

theorem setTxnStatus_transactions (s : DB) (tid : Nat) (st : TxStatus) :
    (setTxnStatus s tid st).transactions = s.transactions.map (updTxn tid st) := rfl

/-! ### find? through row maps -/

theorem find?_map_eq {α : Type} (f : α → α) (p : α → Bool) (l : List α)
    (h : ∀ a, p (f a) = p a) : (l.map f).find? p = (l.find? p).map f := by
  induction l with
  | nil => rfl
  | cons a t ih =>
    simp only [List.map_cons, List.find?]
    rw [h a]
    cases hp : p a <;> simp [hp, ih]

theorem findBook_setBookStatus (s : DB) (bid : Nat) (st : String) (x : Nat) :
    findBook (setBookStatus s bid st) x = (findBook s x).map (updBook bid st) := by
  unfold findBook
  rw [setBookStatus_books]
  exact find?_map_eq _ _ _ (fun b => by rw [updBook_id])

theorem findTxn_setTxnStatus (s : DB) (tid : Nat) (st : TxStatus) (x : Nat) :
    findTxn (setTxnStatus s tid st) x = (findTxn s x).map (updTxn tid st) := by
  unfold findTxn
  rw [setTxnStatus_transactions]
  exact find?_map_eq _ _ _ (fun t => by rw [updTxn_id])

theorem findBook_setTxnStatus (s : DB) (tid : Nat) (st : TxStatus) (x : Nat) :
    findBook (setTxnStatus s tid st) x = findBook s x := rfl

theorem findTxn_setBookStatus (s : DB) (bid : Nat) (st : String) (x : Nat) :
    findTxn (setBookStatus s bid st) x = findTxn s x := rfl

theorem findBook_some_id {s : DB} {x : Nat} {b : Book} (h : findBook s x = some b) :
    b.id = x := by
  have := List.find?_some h
  simpa using this

theorem findBook_some_mem {s : DB} {x : Nat} {b : Book} (h : findBook s x = some b) :
    b ∈ s.books :=
  List.mem_of_find?_eq_some h

theorem findTxn_some_id {s : DB} {x : Nat} {t : Txn} (h : findTxn s x = some t) :
    t.id = x := by
  have := List.find?_some h
  simpa using this

theorem findTxn_some_mem {s : DB} {x : Nat} {t : Txn} (h : findTxn s x = some t) :
    t ∈ s.transactions :=
  List.mem_of_find?_eq_some h

theorem map_updBook_findBook (s : DB) (x ob : Nat) (st : String) :
    (findBook s x).map (updBook ob st) =
      if x = ob then (findBook s x).map (fun b => { b with status := st })
      else findBook s x := by
  cases hfb : findBook s x with
  | none => simp
  | some b =>
    have hid := findBook_some_id hfb
    by_cases hx : x = ob
    · rw [if_pos hx]
      simp only [Option.map_some']
      unfold updBook
      rw [if_pos (by rw [hid, hx])]
    · rw [if_neg hx]
      simp only [Option.map_some']
      rw [updBook_of_ne _ _ _ (by rw [hid]; exact hx)]

theorem map_updTxn_findTxn (s : DB) (x tid : Nat) (st : TxStatus) :
    (findTxn s x).map (updTxn tid st) =
      if x = tid then (findTxn s x).map (fun t => { t with status := st })
      else findTxn s x := by
  cases hft : findTxn s x with
  | none => simp
  | some t =>
    have hid := findTxn_some_id hft
    by_cases hx : x = tid
    · rw [if_pos hx]
      simp only [Option.map_some']
      unfold updTxn
      rw [if_pos (by rw [hid, hx])]
    · rw [if_neg hx]
      simp only [Option.map_some']
      rw [updTxn_of_ne _ _ _ (by rw [hid]; exact hx)]

/-! ### Freshness of the inserted transaction id -/

theorem le_foldr_max (l : List Nat) (x : Nat) (h : x ∈ l) : x ≤ l.foldr max 0 := by
  induction l with
  | nil => cases h
  | cons a t ih =>
    rcases List.mem_cons.mp h with rfl | h'
    · exact le_max_left _ _
    · exact le_trans (ih h') (le_max_right _ _)

theorem nextTxnId_fresh (s : DB) (t : Txn) (h : t ∈ s.transactions) : t.id < nextTxnId s := by
  unfold nextTxnId
  have hm : t.id ∈ s.transactions.map (fun t => t.id) := List.mem_map_of_mem _ h
  have := le_foldr_max _ _ hm
  omega

/-! ### Counting helpers -/

theorem nodup_ids_unique {l : List Txn} (hn : (l.map (fun t => t.id)).Nodup)
    {a b : Txn} (ha : a ∈ l) (hb : b ∈ l) (hid : a.id = b.id) : a = b :=
  List.inj_on_of_nodup_map hn ha hb hid

theorem nodup_book_ids_unique {l : List Book} (hn : (l.map (fun b => b.id)).Nodup)
    {a b : Book} (ha : a ∈ l) (hb : b ∈ l) (hid : a.id = b.id) : a = b :=
  List.inj_on_of_nodup_map hn ha hb hid

theorem countP_append_singleton (p : Txn → Bool) (l : List Txn) (a : Txn) :
    (l ++ [a]).countP p = l.countP p + (if p a then 1 else 0) := by
  rw [List.countP_append]
  simp [List.countP_cons]

theorem countP_map_updTxn (p : Txn → Bool) (l : List Txn) (t : Txn) (st : TxStatus)
    (ht : t ∈ l) (hn : (l.map (fun x => x.id)).Nodup) :
    (l.map (updTxn t.id st)).countP p + (if p t then 1 else 0)
      = l.countP p + (if p { t with status := st } then 1 else 0) := by
  have hperm : List.Perm l (t :: l.erase t) := List.perm_cons_erase ht
  have hnl : l.Nodup := hn.of_map
  have ht_not : t ∉ l.erase t := by
    intro hc
    exact hnl.not_mem_erase hc
  have herase : ∀ u ∈ l.erase t, updTxn t.id st u = u := by
    intro u hu
    have hul : u ∈ l := List.mem_of_mem_erase hu
    have hne : u.id ≠ t.id := by
      intro he
      have : u = t := nodup_ids_unique hn hul ht he
      subst this
      exact ht_not hu
    exact updTxn_of_ne _ _ _ hne
  have hmap := hperm.map (updTxn t.id st)
  rw [hmap.countP_eq, hperm.countP_eq]
  simp only [List.map_cons, List.countP_cons]
  rw [List.map_congr_left herase]
  have htt : updTxn t.id st t = { t with status := st } := by
    unfold updTxn
    rw [if_pos rfl]
  rw [htt]
  by_cases hp : p t <;> by_cases hq : p { t with status := st } <;> simp [hp, hq]

theorem two_le_countP (p : Txn → Bool) (l : List Txn) (a b : Txn) (ha : a ∈ l) (hb : b ∈ l)
    (hab : a ≠ b) (hpa : p a = true) (hpb : p b = true) : 2 ≤ l.countP p := by
  have h1 : List.Perm l (a :: l.erase a) := List.perm_cons_erase ha
  have hb1 : b ∈ l.erase a := (List.mem_erase_of_ne (fun h => hab h.symm)).mpr hb
  have h2 : List.Perm (l.erase a) (b :: (l.erase a).erase b) := List.perm_cons_erase hb1
  have e1 : l.countP p = (l.erase a).countP p + 1 := by
    rw [h1.countP_eq]
    simp [List.countP_cons, hpa]
  have e2 : (l.erase a).countP p = ((l.erase a).erase b).countP p + 1 := by
    rw [h2.countP_eq]
    simp [List.countP_cons, hpb]
  omega

theorem countP_zero_of_status {l : List Txn} {p : Txn → Bool}
    (h : l.countP p = 0) {t : Txn} (ht : t ∈ l) : p t = false := by
  by_contra hc
  have hp : p t = true := by
    cases hpt : p t
    · exact absurd hpt hc
    · rfl
  have : 0 < l.countP p := List.countP_pos_iff.mpr ⟨t, ht, hp⟩
  omega

/-! ### Cascade characterization -/

theorem cascade_cons (tid : Nat) (s : DB) (ot : Txn) (rest : List Txn) :
    cascade tid s (ot :: rest) = cascade tid (cascadeStep tid s ot) rest := by
  simp [cascade]

theorem cascade_eq_self (tid : Nat) (sibs : List Txn) (s : DB)
    (h : ∀ ot ∈ sibs, ot.id = tid ∨ ot.status ≠ TxStatus.pending) :
    cascade tid s sibs = s := by
  induction sibs generalizing s with
  | nil => rfl
  | cons ot rest ih =>
    rw [cascade_cons]
    have hstep : cascadeStep tid s ot = s := by
      unfold cascadeStep
      rw [if_neg]
      intro ⟨h1, h2⟩
      rcases h ot (List.mem_cons_self _ _) with h3 | h3
      · exact h1 h3
      · exact h3 h2
    rw [hstep]
    exact ih _ (fun u hu => h u (List.mem_cons_of_mem _ hu))

theorem cascade_findBook (tid : Nat) (sibs : List Txn) (s : DB) (x : Nat) :
    findBook (cascade tid s sibs) x =
      if ∃ ot ∈ sibs, ot.id ≠ tid ∧ ot.status = TxStatus.pending ∧ ot.offeredBookId = some x
      then (findBook s x).map (fun b => { b with status := "available" })
      else findBook s x := by
  induction sibs generalizing s with
  | nil => simp [cascade]
  | cons ot rest ih =>
    rw [cascade_cons, ih]
    by_cases hot : ot.id ≠ tid ∧ ot.status = TxStatus.pending
    · cases hob : ot.offeredBookId with
      | none =>
        have hstep : findBook (cascadeStep tid s ot) x = findBook s x := by
          unfold cascadeStep
          rw [if_pos hot, hob]
          exact findBook_setTxnStatus _ _ _ _
        have hcond : (∃ u ∈ ot :: rest, u.id ≠ tid ∧ u.status = TxStatus.pending ∧
            u.offeredBookId = some x) ↔ (∃ u ∈ rest, u.id ≠ tid ∧
            u.status = TxStatus.pending ∧ u.offeredBookId = some x) := by
          constructor
          · rintro ⟨u, hu, hC⟩
            rcases List.mem_cons.mp hu with rfl | hu'
            · rw [hob] at hC
              exact absurd hC.2.2 (by simp)
            · exact ⟨u, hu', hC⟩
          · rintro ⟨u, hu, hC⟩
            exact ⟨u, List.mem_cons_of_mem _ hu, hC⟩
        rw [hstep, if_congr hcond rfl rfl]
      | some ob =>
        have hstep : findBook (cascadeStep tid s ot) x =
            (findBook s x).map (updBook ob "available") := by
          unfold cascadeStep
          rw [if_pos hot, hob]
          rw [findBook_setBookStatus, findBook_setTxnStatus]
        by_cases hxob : x = ob
        · have hCot : ot.id ≠ tid ∧ ot.status = TxStatus.pending ∧
              ot.offeredBookId = some x := ⟨hot.1, hot.2, by rw [hob, hxob]⟩
          have hRHS : (∃ u ∈ ot :: rest, u.id ≠ tid ∧ u.status = TxStatus.pending ∧
              u.offeredBookId = some x) := ⟨ot, List.mem_cons_self _ _, hCot⟩
          rw [if_pos hRHS, hstep, map_updBook_findBook, if_pos hxob]
          split
          · cases findBook s x <;> simp
          · rfl
        · have hstep2 : findBook (cascadeStep tid s ot) x = findBook s x := by
            rw [hstep, map_updBook_findBook, if_neg hxob]
          have hcond : (∃ u ∈ ot :: rest, u.id ≠ tid ∧ u.status = TxStatus.pending ∧
              u.offeredBookId = some x) ↔ (∃ u ∈ rest, u.id ≠ tid ∧
              u.status = TxStatus.pending ∧ u.offeredBookId = some x) := by
            constructor
            · rintro ⟨u, hu, hC⟩
              rcases List.mem_cons.mp hu with rfl | hu'
              · rw [hob] at hC
                have hobx : ob = x := by
                  have := hC.2.2
                  simpa using this
                exact absurd hobx.symm hxob
              · exact ⟨u, hu', hC⟩
            · rintro ⟨u, hu, hC⟩
              exact ⟨u, List.mem_cons_of_mem _ hu, hC⟩
          rw [hstep2, if_congr hcond rfl rfl]
    · have hstep : cascadeStep tid s ot = s := by
        unfold cascadeStep
        rw [if_neg hot]
      have hcond : (∃ u ∈ ot :: rest, u.id ≠ tid ∧ u.status = TxStatus.pending ∧
          u.offeredBookId = some x) ↔ (∃ u ∈ rest, u.id ≠ tid ∧
          u.status = TxStatus.pending ∧ u.offeredBookId = some x) := by
        constructor
        · rintro ⟨u, hu, hC⟩
          rcases List.mem_cons.mp hu with rfl | hu'
          · exact absurd ⟨hC.1, hC.2.1⟩ hot
          · exact ⟨u, hu', hC⟩
        · rintro ⟨u, hu, hC⟩
          exact ⟨u, List.mem_cons_of_mem _ hu, hC⟩
      rw [hstep, if_congr hcond rfl rfl]

theorem cascade_findTxn (tid : Nat) (sibs : List Txn) (s : DB) (x : Nat) :
    findTxn (cascade tid s sibs) x =
      if ∃ ot ∈ sibs, ot.id ≠ tid ∧ ot.status = TxStatus.pending ∧ ot.id = x
      then (findTxn s x).map (fun t => { t with status := TxStatus.rejected })
      else findTxn s x := by
  induction sibs generalizing s with
  | nil => simp [cascade]
  | cons ot rest ih =>
    rw [cascade_cons, ih]
    by_cases hot : ot.id ≠ tid ∧ ot.status = TxStatus.pending
    · have hstep : findTxn (cascadeStep tid s ot) x =
          (findTxn s x).map (updTxn ot.id TxStatus.rejected) := by
        unfold cascadeStep
        rw [if_pos hot]
        cases hob : ot.offeredBookId with
        | none => exact findTxn_setTxnStatus _ _ _ _
        | some ob =>
          rw [findTxn_setBookStatus]
          exact findTxn_setTxnStatus _ _ _ _
      by_cases hxid : x = ot.id
      · have hRHS : (∃ u ∈ ot :: rest, u.id ≠ tid ∧ u.status = TxStatus.pending ∧
            u.id = x) := ⟨ot, List.mem_cons_self _ _, hot.1, hot.2, hxid.symm⟩
        rw [if_pos hRHS, hstep, map_updTxn_findTxn, if_pos hxid]
        split
        · cases findTxn s x <;> simp
        · rfl
      · have hstep2 : findTxn (cascadeStep tid s ot) x = findTxn s x := by
          rw [hstep, map_updTxn_findTxn, if_neg hxid]
        have hcond : (∃ u ∈ ot :: rest, u.id ≠ tid ∧ u.status = TxStatus.pending ∧
            u.id = x) ↔ (∃ u ∈ rest, u.id ≠ tid ∧ u.status = TxStatus.pending ∧
            u.id = x) := by
          constructor
          · rintro ⟨u, hu, hC⟩
            rcases List.mem_cons.mp hu with rfl | hu'
            · exact absurd hC.2.2.symm hxid
            · exact ⟨u, hu', hC⟩
          · rintro ⟨u, hu, hC⟩
            exact ⟨u, List.mem_cons_of_mem _ hu, hC⟩
        rw [hstep2, if_congr hcond rfl rfl]
    · have hstep : cascadeStep tid s ot = s := by
        unfold cascadeStep
        rw [if_neg hot]
      have hcond : (∃ u ∈ ot :: rest, u.id ≠ tid ∧ u.status = TxStatus.pending ∧
          u.id = x) ↔ (∃ u ∈ rest, u.id ≠ tid ∧ u.status = TxStatus.pending ∧
          u.id = x) := by
        constructor
        · rintro ⟨u, hu, hC⟩
          rcases List.mem_cons.mp hu with rfl | hu'
          · exact absurd ⟨hC.1, hC.2.1⟩ hot
          · exact ⟨u, hu', hC⟩
        · rintro ⟨u, hu, hC⟩
          exact ⟨u, List.mem_cons_of_mem _ hu, hC⟩
      rw [hstep, if_congr hcond rfl rfl]


/-! ### Inversion of successful operations -/

theorem createTransaction_ok {s : DB} {u : Nat} {i : CreateTxInput} {s' : DB} {t : Txn}
    (h : createTransaction s u i = (s', .ok t)) :
    createInputOk i = true ∧
    (∃ book, findBook s i.requestedBookId = some book ∧ book.status = "available" ∧
      book.ownerId = i.ownerId ∧ book.ownerId ≠ u ∧ book.availabilityType = i.type) ∧
    exchangeCheck s u i = none ∧
    hasDuplicatePending s u i.requestedBookId = false ∧
    t = newTxnOf s u i ∧ s' = createdState s u i := by
  unfold createTransaction at h
  split at h
  case isTrue => simp at h
  case isFalse hvalid =>
    split at h
    case h_1 => simp at h
    case h_2 book hfb =>
      split at h
      case isTrue => simp at h
      case isFalse hstat =>
        split at h
        case isTrue => simp at h
        case isFalse howner =>
          split at h
          case h_1 => simp at h
          case h_2 hexch =>
            split at h
            case isTrue => simp at h
            case isFalse hown =>
              split at h
              case isTrue => simp at h
              case isFalse htype =>
                split at h
                case isTrue => simp at h
                case isFalse hdup =>
                  have h1 : createdState s u i = s' := congrArg Prod.fst h
                  have h2 : (Except.ok (newTxnOf s u i) : Except ApiError Txn) = Except.ok t :=
                    congrArg Prod.snd h
                  have h3 : newTxnOf s u i = t := by
                    simpa using h2
                  exact ⟨by simpa using hvalid, ⟨book, hfb, by simpa using hstat,
                    by simpa using howner, hown, by simpa using htype⟩, hexch,
                    by simpa using hdup, h3.symm, h1.symm⟩

theorem createTransaction_error_state {s : DB} {u : Nat} {i : CreateTxInput}
    {e : ApiError} (h : (createTransaction s u i).2 = .error e) :
    (createTransaction s u i).1 = s := by
  unfold createTransaction at h ⊢
  split
  · rfl
  · split
    · rfl
    · split
      · rfl
      · split
        · rfl
        · split
          · rfl
          · split
            · rfl
            · split
              · rfl
              · split
                · rfl
                · simp_all

theorem updateTransaction_ok {s : DB} {u : Nat} {tid : Nat} {st : TxStatus} {s' : DB}
    {t' : Txn} (h : updateTransaction s u tid st = (s', .ok t')) :
    tid ≠ 0 ∧
    (∃ txn book, findTxn s tid = some txn ∧ findBook s txn.requestedBookId = some book ∧
      book.ownerId = u ∧ txn.status = TxStatus.pending ∧
      t' = { txn with status := st } ∧
      ((st = TxStatus.approved ∧ s' = approvedState s tid txn) ∨
       (st = TxStatus.rejected ∧ s' = rejectedState s tid txn))) := by
  unfold updateTransaction at h
  split at h
  case isTrue => simp at h
  case isFalse hnz =>
    split at h
    case h_1 => simp at h
    case h_2 txn hft =>
      split at h
      case h_1 => simp at h
      case h_2 book hfb =>
        split at h
        case isTrue => simp at h
        case isFalse howner =>
          split at h
          case isTrue => simp at h
          case isFalse hpend =>
            split at h
            case isTrue => simp at h
            case isFalse hval =>
              split at h
              case isTrue happ =>
                have h1 : approvedState s tid txn = s' := congrArg Prod.fst h
                have h2 : ({ txn with status := st } : Txn) = t' := by
                  have := congrArg Prod.snd h
                  simpa using this
                exact ⟨hnz, txn, book, hft, hfb, by simpa using howner,
                  by simpa using hpend, h2.symm, Or.inl ⟨happ, h1.symm⟩⟩
              case isFalse happ =>
                have hrej : st = TxStatus.rejected := by
                  rcases not_and_or.mp hval with hv | hv
                  · exact absurd (by simpa using hv) happ
                  · simpa using hv
                have h1 : rejectedState s tid txn = s' := congrArg Prod.fst h
                have h2 : ({ txn with status := st } : Txn) = t' := by
                  have := congrArg Prod.snd h
                  simpa using this
                exact ⟨hnz, txn, book, hft, hfb, by simpa using howner,
                  by simpa using hpend, h2.symm, Or.inr ⟨hrej, h1.symm⟩⟩

theorem updateTransaction_error_state {s : DB} {u : Nat} {tid : Nat} {st : TxStatus}
    {e : ApiError} (h : (updateTransaction s u tid st).2 = .error e) :
    (updateTransaction s u tid st).1 = s := by
  unfold updateTransaction at h ⊢
  split
  · rfl
  · split
    · rfl
    · split
      · rfl
      · split
        · rfl
        · split
          · rfl
          · split
            · rfl
            · split
              · simp_all
              · simp_all

/-! ### State invariant carried by the reachability induction -/

/-- Row predicate: a pending transaction referencing book bid as requested or offered. -/
def isPendRef (bid : Nat) (t : Txn) : Bool :=
  decide (t.status = TxStatus.pending ∧
    (t.requestedBookId = bid ∨ t.offeredBookId = some bid))

/-- Row predicate: an approved transaction whose requested book is bid. -/
def isApprReq (bid : Nat) (t : Txn) : Bool :=
  decide (t.status = TxStatus.approved ∧ t.requestedBookId = bid)

/-- Row predicate: an approved transaction whose offered book is bid. -/
def isApprOff (bid : Nat) (t : Txn) : Bool :=
  decide (t.status = TxStatus.approved ∧ t.offeredBookId = some bid)

/-- Number of pending transactions referencing book bid. -/
def pendCnt (s : DB) (bid : Nat) : Nat := s.transactions.countP (isPendRef bid)

/-- Number of approved transactions requesting book bid. -/
def apprReqCnt (s : DB) (bid : Nat) : Nat := s.transactions.countP (isApprReq bid)

/-- Number of approved transactions offering book bid. -/
def apprOffCnt (s : DB) (bid : Nat) : Nat := s.transactions.countP (isApprOff bid)

/-- Invariant maintained by createTransaction and updateTransaction from initial states:
unique ids, referential integrity of transaction rows, and the coupling between book
statuses and the transactions referencing them. -/
structure StateInv (s : DB) : Prop where
  bookIdsNodup : (s.books.map (fun b => b.id)).Nodup
  txnIdsNodup : (s.transactions.map (fun t => t.id)).Nodup
  reqExists : ∀ t ∈ s.transactions, ∃ b ∈ s.books, b.id = t.requestedBookId
  offExists : ∀ t ∈ s.transactions, ∀ ob, t.offeredBookId = some ob →
    (∃ b ∈ s.books, b.id = ob) ∧ ob ≠ t.requestedBookId
  pendIff : ∀ b ∈ s.books, b.status = "pending" ↔ 0 < pendCnt s b.id + apprOffCnt s b.id
  apprIff : ∀ b ∈ s.books, b.status = "approved" ↔ 0 < apprReqCnt s b.id
  pendLe : ∀ b ∈ s.books, pendCnt s b.id ≤ 1
  apprReqLe : ∀ b ∈ s.books, apprReqCnt s b.id ≤ 1
  apprOffLe : ∀ b ∈ s.books, apprOffCnt s b.id ≤ 1
  excl : ∀ b ∈ s.books, pendCnt s b.id = 0 ∨ apprOffCnt s b.id = 0

/-- An initial state: a book catalogue with unique ids, every book available,
and no transactions yet. -/
def InitState (s : DB) : Prop :=
  s.transactions = [] ∧ (s.books.map (fun b => b.id)).Nodup ∧
    ∀ b ∈ s.books, b.status = "available"

/-- States reachable from an initial state through successful createTransaction and
updateTransaction calls (failed calls leave the state unchanged by construction). -/
inductive Reachable : DB → Prop where
  | init (s : DB) (h : InitState s) : Reachable s
  | create (s : DB) (u : Nat) (i : CreateTxInput) (s' : DB) (t : Txn)
      (hr : Reachable s) (h : createTransaction s u i = (s', .ok t)) : Reachable s'
  | resolve (s : DB) (u : Nat) (tid : Nat) (st : TxStatus) (s' : DB) (t : Txn)
      (hr : Reachable s) (h : updateTransaction s u tid st = (s', .ok t)) : Reachable s'

theorem init_inv {s : DB} (h : InitState s) : StateInv s := by
  obtain ⟨htx, hnodup, havail⟩ := h
  have hcnt : ∀ p : Txn → Bool, s.transactions.countP p = 0 := by
    intro p
    rw [htx]
    rfl
  refine ⟨hnodup, by rw [htx]; exact List.nodup_nil, ?_, ?_, ?_, ?_, ?_, ?_, ?_, ?_⟩
  · intro t ht
    rw [htx] at ht
    cases ht
  · intro t ht
    rw [htx] at ht
    cases ht
  · intro b hb
    rw [havail b hb]
    unfold pendCnt apprOffCnt
    rw [hcnt, hcnt]
    simp
  · intro b hb
    rw [havail b hb]
    unfold apprReqCnt
    rw [hcnt]
    simp
  · intro b hb
    unfold pendCnt
    rw [hcnt]
    omega
  · intro b hb
    unfold apprReqCnt
    rw [hcnt]
    omega
  · intro b hb
    unfold apprOffCnt
    rw [hcnt]
    omega
  · intro b hb
    unfold pendCnt
    rw [hcnt]
    exact Or.inl rfl

/-! ### Transport lemmas for mapped book lists -/

theorem map_updBook_ids (l : List Book) (bid : Nat) (st : String) :
    (l.map (updBook bid st)).map (fun b => b.id) = l.map (fun b => b.id) := by
  rw [List.map_map]
  apply List.map_congr_left
  intro a _
  exact updBook_id bid st a

theorem map_updTxn_ids (l : List Txn) (tid : Nat) (st : TxStatus) :
    (l.map (updTxn tid st)).map (fun t => t.id) = l.map (fun t => t.id) := by
  rw [List.map_map]
  apply List.map_congr_left
  intro a _
  exact updTxn_id tid st a

theorem bookIdExists_map (l : List Book) (bid : Nat) (st : String) (x : Nat) :
    (∃ b ∈ l.map (updBook bid st), b.id = x) ↔ (∃ b ∈ l, b.id = x) := by
  constructor
  · rintro ⟨b, hb, hid⟩
    rcases List.mem_map.mp hb with ⟨b0, hb0, rfl⟩
    exact ⟨b0, hb0, by rw [← updBook_id bid st b0]; exact hid⟩
  · rintro ⟨b, hb, hid⟩
    exact ⟨updBook bid st b, List.mem_map_of_mem _ hb, by rw [updBook_id]; exact hid⟩

/-! ### Preservation of the invariant by createTransaction -/

theorem exchangeCheck_none {s : DB} {u : Nat} {i : CreateTxInput}
    (h : exchangeCheck s u i = none) (hex : i.type = BType.Exchange) :
    ∃ ob obk, i.offeredBookId = some ob ∧ findBook s ob = some obk ∧
      obk.ownerId = u ∧ obk.status = "available" ∧ ob ≠ i.requestedBookId := by
  unfold exchangeCheck at h
  rw [if_pos hex] at h
  split at h
  case h_1 => simp at h
  case h_2 ob hob =>
    split at h
    case h_1 => simp at h
    case h_2 obk hfbo =>
      split at h
      case isTrue => simp at h
      case isFalse h1 =>
        split at h
        case isTrue => simp at h
        case isFalse h2 =>
          split at h
          case isTrue => simp at h
          case isFalse h3 =>
            exact ⟨ob, obk, hob, hfbo, by simpa using h1, by simpa using h2, h3⟩

theorem createInputOk_props {i : CreateTxInput} (h : createInputOk i = true) :
    1 ≤ i.requestedBookId ∧ 1 ≤ i.ownerId ∧
    (∀ ob, i.offeredBookId = some ob → 1 ≤ ob) ∧
    (i.type = BType.Exchange → i.offeredBookId ≠ none) ∧
    (i.type = BType.Free → i.offeredBookId = none) :=
  of_decide_eq_true h

theorem findBook_unique {s : DB} {x : Nat} {bk b0 : Book}
    (hn : (s.books.map (fun b => b.id)).Nodup) (hfb : findBook s x = some bk)
    (hb0 : b0 ∈ s.books) (hid : b0.id = x) : b0 = bk :=
  nodup_book_ids_unique hn hb0 (findBook_some_mem hfb)
    (by rw [hid, findBook_some_id hfb])

theorem createdState_transactions (s : DB) (u : Nat) (i : CreateTxInput) :
    (createdState s u i).transactions = s.transactions ++ [newTxnOf s u i] := by
  unfold createdState
  cases ht : i.type <;> cases hob : i.offeredBookId <;> rfl

theorem newTxnOf_status (s : DB) (u : Nat) (i : CreateTxInput) :
    (newTxnOf s u i).status = TxStatus.pending := rfl

theorem newTxnOf_requestedBookId (s : DB) (u : Nat) (i : CreateTxInput) :
    (newTxnOf s u i).requestedBookId = i.requestedBookId := rfl

theorem newTxnOf_offeredBookId (s : DB) (u : Nat) (i : CreateTxInput) :
    (newTxnOf s u i).offeredBookId = i.offeredBookId := rfl

/-- A book whose status is available has no pending reference, no approved request
and no approved offer counted against it. -/
theorem counts_zero_of_available {s : DB} (inv : StateInv s) {b : Book}
    (hb : b ∈ s.books) (hav : b.status = "available") :
    pendCnt s b.id = 0 ∧ apprOffCnt s b.id = 0 ∧ apprReqCnt s b.id = 0 := by
  have hiff := inv.pendIff b hb
  have hiff2 := inv.apprIff b hb
  rw [hav] at hiff hiff2
  have h1 : ¬(0 < pendCnt s b.id + apprOffCnt s b.id) := by
    intro hc
    exact absurd (hiff.mpr hc) (by decide)
  have h2 : ¬(0 < apprReqCnt s b.id) := by
    intro hc
    exact absurd (hiff2.mpr hc) (by decide)
  omega

theorem createdState_books_free (s : DB) (u : Nat) (i : CreateTxInput)
    (h1 : i.type = BType.Free) :
    (createdState s u i).books = s.books.map (updBook i.requestedBookId "pending") := by
  unfold createdState
  rw [h1]
  cases i.offeredBookId <;> rfl

theorem createdState_books_exchange (s : DB) (u : Nat) (i : CreateTxInput) (ob : Nat)
    (h1 : i.type = BType.Exchange) (hob : i.offeredBookId = some ob) :
    (createdState s u i).books =
      (s.books.map (updBook i.requestedBookId "pending")).map (updBook ob "pending") := by
  unfold createdState
  rw [h1, hob]
  rfl

theorem create_preserves_inv {s : DB} {u : Nat} {i : CreateTxInput} {s' : DB} {t : Txn}
    (inv : StateInv s) (h : createTransaction s u i = (s', .ok t)) : StateInv s' := by
  obtain ⟨hvalid, ⟨book, hfb, hbavail, hbown, hbownne, hbtype⟩, hexch, hdup, ht, hs'⟩ :=
    createTransaction_ok h
  subst hs'
  have hbmem := findBook_some_mem hfb
  have hbid := findBook_some_id hfb
  obtain ⟨hpB, hoB, haB⟩ := counts_zero_of_available inv hbmem hbavail
  rw [hbid] at hpB hoB haB
  have htxns := createdState_transactions s u i
  have htxnnodup : ((createdState s u i).transactions.map (fun t => t.id)).Nodup := by
    rw [htxns, List.map_append]
    refine List.Nodup.append inv.txnIdsNodup (List.nodup_singleton _) ?_
    intro a ha hb
    obtain ⟨t0, ht0, rfl⟩ := List.mem_map.mp ha
    have hlt := nextTxnId_fresh s t0 ht0
    have : t0.id = nextTxnId s := by simpa [newTxnOf] using hb
    omega
  have hcnt : ∀ p : Txn → Bool, (createdState s u i).transactions.countP p
      = s.transactions.countP p + (if p (newTxnOf s u i) then 1 else 0) := by
    intro p
    rw [htxns, countP_append_singleton]
  have hApprReqN : ∀ bid, isApprReq bid (newTxnOf s u i) = false := by
    intro bid
    unfold isApprReq newTxnOf
    simp
  have hApprOffN : ∀ bid, isApprOff bid (newTxnOf s u i) = false := by
    intro bid
    unfold isApprOff newTxnOf
    simp
  have happrReq' : ∀ bid, apprReqCnt (createdState s u i) bid = apprReqCnt s bid := by
    intro bid
    unfold apprReqCnt
    rw [hcnt, hApprReqN]
    simp
  have happrOff' : ∀ bid, apprOffCnt (createdState s u i) bid = apprOffCnt s bid := by
    intro bid
    unfold apprOffCnt
    rw [hcnt, hApprOffN]
    simp
  have hval := createInputOk_props hvalid
  cases htype : i.type with
  | Free =>
    have hobnone : i.offeredBookId = none := hval.2.2.2.2 htype
    have hbooks := createdState_books_free s u i htype
    have hpend' : ∀ bid, pendCnt (createdState s u i) bid
        = pendCnt s bid + (if i.requestedBookId = bid then 1 else 0) := by
      intro bid
      unfold pendCnt
      rw [hcnt]
      congr 1
      unfold isPendRef newTxnOf
      simp [hobnone]
    have hreqxst : ∀ x, (∃ b ∈ (createdState s u i).books, b.id = x)
        ↔ (∃ b ∈ s.books, b.id = x) := by
      intro x
      rw [hbooks]
      exact bookIdExists_map _ _ _ _
    have hcase1 : ∀ b0 : Book, b0.id = i.requestedBookId →
        (updBook i.requestedBookId "pending" b0).status = "pending" ∧
        pendCnt (createdState s u i) b0.id = 1 ∧
        apprReqCnt (createdState s u i) b0.id = 0 ∧
        apprOffCnt (createdState s u i) b0.id = 0 := by
      intro b0 hc
      refine ⟨by unfold updBook; rw [if_pos hc], ?_, ?_, ?_⟩
      · rw [hpend', hc, hpB, if_pos rfl]
      · rw [happrReq', hc, haB]
      · rw [happrOff', hc, hoB]
    have hcase2 : ∀ b0 : Book, b0.id ≠ i.requestedBookId →
        (updBook i.requestedBookId "pending" b0).status = b0.status ∧
        pendCnt (createdState s u i) b0.id = pendCnt s b0.id ∧
        apprReqCnt (createdState s u i) b0.id = apprReqCnt s b0.id ∧
        apprOffCnt (createdState s u i) b0.id = apprOffCnt s b0.id := by
      intro b0 hc
      refine ⟨by rw [updBook_of_ne _ _ _ hc], ?_, happrReq' _, happrOff' _⟩
      rw [hpend', if_neg (fun hx => hc hx.symm)]
      omega
    refine ⟨?_, htxnnodup, ?_, ?_, ?_, ?_, ?_, ?_, ?_, ?_⟩
    · rw [hbooks, map_updBook_ids]
      exact inv.bookIdsNodup
    · intro t0 ht0
      rw [htxns] at ht0
      rcases List.mem_append.mp ht0 with hold | hnew
      · exact (hreqxst _).mpr (inv.reqExists t0 hold)
      · have : t0 = newTxnOf s u i := by simpa using hnew
        subst this
        exact (hreqxst _).mpr ⟨book, hbmem, hbid⟩
    · intro t0 ht0 ob hob
      rw [htxns] at ht0
      rcases List.mem_append.mp ht0 with hold | hnew
      · obtain ⟨hex, hne⟩ := inv.offExists t0 hold ob hob
        exact ⟨(hreqxst _).mpr hex, hne⟩
      · have : t0 = newTxnOf s u i := by simpa using hnew
        subst this
        rw [newTxnOf_offeredBookId, hobnone] at hob
        cases hob
    · intro b' hb'
      rw [hbooks] at hb'
      obtain ⟨b0, hb0, rfl⟩ := List.mem_map.mp hb'
      rw [updBook_id]
      by_cases hc : b0.id = i.requestedBookId
      · obtain ⟨hst, hp, ha, ho⟩ := hcase1 b0 hc
        rw [hst, hp, ho]
        simp
      · obtain ⟨hst, hp, ha, ho⟩ := hcase2 b0 hc
        rw [hst, hp, ho]
        exact inv.pendIff b0 hb0
    · intro b' hb'
      rw [hbooks] at hb'
      obtain ⟨b0, hb0, rfl⟩ := List.mem_map.mp hb'
      rw [updBook_id]
      by_cases hc : b0.id = i.requestedBookId
      · obtain ⟨hst, hp, ha, ho⟩ := hcase1 b0 hc
        rw [hst, ha]
        simp
      · obtain ⟨hst, hp, ha, ho⟩ := hcase2 b0 hc
        rw [hst, ha]
        exact inv.apprIff b0 hb0
    · intro b' hb'
      rw [hbooks] at hb'
      obtain ⟨b0, hb0, rfl⟩ := List.mem_map.mp hb'
      rw [updBook_id]
      by_cases hc : b0.id = i.requestedBookId
      · obtain ⟨hst, hp, ha, ho⟩ := hcase1 b0 hc
        omega
      · obtain ⟨hst, hp, ha, ho⟩ := hcase2 b0 hc
        rw [hp]
        exact inv.pendLe b0 hb0
    · intro b' hb'
      rw [hbooks] at hb'
      obtain ⟨b0, hb0, rfl⟩ := List.mem_map.mp hb'
      rw [updBook_id]
      by_cases hc : b0.id = i.requestedBookId
      · obtain ⟨hst, hp, ha, ho⟩ := hcase1 b0 hc
        omega
      · obtain ⟨hst, hp, ha, ho⟩ := hcase2 b0 hc
        rw [ha]
        exact inv.apprReqLe b0 hb0
    · intro b' hb'
      rw [hbooks] at hb'
      obtain ⟨b0, hb0, rfl⟩ := List.mem_map.mp hb'
      rw [updBook_id]
      by_cases hc : b0.id = i.requestedBookId
      · obtain ⟨hst, hp, ha, ho⟩ := hcase1 b0 hc
        omega
      · obtain ⟨hst, hp, ha, ho⟩ := hcase2 b0 hc
        rw [ho]
        exact inv.apprOffLe b0 hb0
    · intro b' hb'
      rw [hbooks] at hb'
      obtain ⟨b0, hb0, rfl⟩ := List.mem_map.mp hb'
      rw [updBook_id]
      by_cases hc : b0.id = i.requestedBookId
      · obtain ⟨hst, hp, ha, ho⟩ := hcase1 b0 hc
        exact Or.inr ho
      · obtain ⟨hst, hp, ha, ho⟩ := hcase2 b0 hc
        rw [hp, ho]
        exact inv.excl b0 hb0
  | Exchange =>
    obtain ⟨ob, obk, hob, hfbo, hobkown, hobkavail, hobne⟩ := exchangeCheck_none hexch htype
    have hobmem := findBook_some_mem hfbo
    have hobid := findBook_some_id hfbo
    obtain ⟨hpO, hoO, haO⟩ := counts_zero_of_available inv hobmem hobkavail
    rw [hobid] at hpO hoO haO
    have hbooks := createdState_books_exchange s u i ob htype hob
    have hpend' : ∀ bid, pendCnt (createdState s u i) bid
        = pendCnt s bid + (if i.requestedBookId = bid ∨ ob = bid then 1 else 0) := by
      intro bid
      unfold pendCnt
      rw [hcnt]
      congr 1
      unfold isPendRef newTxnOf
      simp [hob]
    have hreqxst : ∀ x, (∃ b ∈ (createdState s u i).books, b.id = x)
        ↔ (∃ b ∈ s.books, b.id = x) := by
      intro x
      rw [hbooks]
      rw [bookIdExists_map]
      exact bookIdExists_map _ _ _ _
    have hg : ∀ b0 : Book, updBook ob "pending" (updBook i.requestedBookId "pending" b0)
        = if b0.id = i.requestedBookId then { b0 with status := "pending" }
          else if b0.id = ob then { b0 with status := "pending" } else b0 := by
      intro b0
      by_cases hc : b0.id = i.requestedBookId
      · rw [if_pos hc]
        unfold updBook
        rw [if_pos hc, if_neg (by intro hx; exact hobne (by rw [← hx, hc]))]
      · rw [if_neg hc]
        rw [updBook_of_ne _ _ _ hc]
        by_cases hc2 : b0.id = ob
        · rw [if_pos hc2]
          unfold updBook
          rw [if_pos hc2]
        · rw [if_neg hc2, updBook_of_ne _ _ _ hc2]
    have hcase1 : ∀ b0 : Book, b0.id = i.requestedBookId →
        pendCnt (createdState s u i) b0.id = 1 ∧
        apprReqCnt (createdState s u i) b0.id = 0 ∧
        apprOffCnt (createdState s u i) b0.id = 0 := by
      intro b0 hc
      refine ⟨?_, ?_, ?_⟩
      · rw [hpend', hc, hpB, if_pos (Or.inl rfl)]
      · rw [happrReq', hc, haB]
      · rw [happrOff', hc, hoB]
    have hcase2 : ∀ b0 : Book, b0.id = ob →
        pendCnt (createdState s u i) b0.id = 1 ∧
        apprReqCnt (createdState s u i) b0.id = 0 ∧
        apprOffCnt (createdState s u i) b0.id = 0 := by
      intro b0 hc
      refine ⟨?_, ?_, ?_⟩
      · rw [hpend', hc, hpO, if_pos (Or.inr rfl)]
      · rw [happrReq', hc, haO]
      · rw [happrOff', hc, hoO]
    have hcase3 : ∀ b0 : Book, b0.id ≠ i.requestedBookId → b0.id ≠ ob →
        pendCnt (createdState s u i) b0.id = pendCnt s b0.id ∧
        apprReqCnt (createdState s u i) b0.id = apprReqCnt s b0.id ∧
        apprOffCnt (createdState s u i) b0.id = apprOffCnt s b0.id := by
      intro b0 hc1 hc2
      refine ⟨?_, happrReq' _, happrOff' _⟩
      rw [hpend', if_neg]
      · omega
      · rintro (hx | hx)
        · exact hc1 hx.symm
        · exact hc2 hx.symm
    refine ⟨?_, htxnnodup, ?_, ?_, ?_, ?_, ?_, ?_, ?_, ?_⟩
    · rw [hbooks, map_updBook_ids, map_updBook_ids]
      exact inv.bookIdsNodup
    · intro t0 ht0
      rw [htxns] at ht0
      rcases List.mem_append.mp ht0 with hold | hnew
      · exact (hreqxst _).mpr (inv.reqExists t0 hold)
      · have : t0 = newTxnOf s u i := by simpa using hnew
        subst this
        exact (hreqxst _).mpr ⟨book, hbmem, hbid⟩
    · intro t0 ht0 ob' hob'
      rw [htxns] at ht0
      rcases List.mem_append.mp ht0 with hold | hnew
      · obtain ⟨hex, hne⟩ := inv.offExists t0 hold ob' hob'
        exact ⟨(hreqxst _).mpr hex, hne⟩
      · have : t0 = newTxnOf s u i := by simpa using hnew
        subst this
        rw [newTxnOf_offeredBookId, hob] at hob'
        have hobeq : ob = ob' := by simpa using hob'
        subst hobeq
        exact ⟨(hreqxst _).mpr ⟨obk, hobmem, hobid⟩, hobne⟩
    · intro b' hb'
      rw [hbooks] at hb'
      obtain ⟨b1, hb1, rfl⟩ := List.mem_map.mp hb'
      obtain ⟨b0, hb0, rfl⟩ := List.mem_map.mp hb1
      rw [hg b0]
      by_cases hc1 : b0.id = i.requestedBookId
      · rw [if_pos hc1]
        obtain ⟨hp, ha, ho⟩ := hcase1 b0 hc1
        show "pending" = "pending" ↔
          0 < pendCnt (createdState s u i) b0.id + apprOffCnt (createdState s u i) b0.id
        simp [hp, ho]
      · rw [if_neg hc1]
        by_cases hc2 : b0.id = ob
        · rw [if_pos hc2]
          obtain ⟨hp, ha, ho⟩ := hcase2 b0 hc2
          show "pending" = "pending" ↔
            0 < pendCnt (createdState s u i) b0.id + apprOffCnt (createdState s u i) b0.id
          simp [hp, ho]
        · rw [if_neg hc2]
          obtain ⟨hp, ha, ho⟩ := hcase3 b0 hc1 hc2
          rw [hp, ho]
          exact inv.pendIff b0 hb0
    · intro b' hb'
      rw [hbooks] at hb'
      obtain ⟨b1, hb1, rfl⟩ := List.mem_map.mp hb'
      obtain ⟨b0, hb0, rfl⟩ := List.mem_map.mp hb1
      rw [hg b0]
      by_cases hc1 : b0.id = i.requestedBookId
      · rw [if_pos hc1]
        obtain ⟨hp, ha, ho⟩ := hcase1 b0 hc1
        show "pending" = "approved" ↔ 0 < apprReqCnt (createdState s u i) b0.id
        rw [ha]
        simp
      · rw [if_neg hc1]
        by_cases hc2 : b0.id = ob
        · rw [if_pos hc2]
          obtain ⟨hp, ha, ho⟩ := hcase2 b0 hc2
          show "pending" = "approved" ↔ 0 < apprReqCnt (createdState s u i) b0.id
          rw [ha]
          simp
        · rw [if_neg hc2]
          obtain ⟨hp, ha, ho⟩ := hcase3 b0 hc1 hc2
          rw [ha]
          exact inv.apprIff b0 hb0
    · intro b' hb'
      rw [hbooks] at hb'
      obtain ⟨b1, hb1, rfl⟩ := List.mem_map.mp hb'
      obtain ⟨b0, hb0, rfl⟩ := List.mem_map.mp hb1
      rw [hg b0]
      by_cases hc1 : b0.id = i.requestedBookId
      · rw [if_pos hc1]
        obtain ⟨hp, ha, ho⟩ := hcase1 b0 hc1
        show pendCnt (createdState s u i) b0.id ≤ 1
        omega
      · rw [if_neg hc1]
        by_cases hc2 : b0.id = ob
        · rw [if_pos hc2]
          obtain ⟨hp, ha, ho⟩ := hcase2 b0 hc2
          show pendCnt (createdState s u i) b0.id ≤ 1
          omega
        · rw [if_neg hc2]
          obtain ⟨hp, ha, ho⟩ := hcase3 b0 hc1 hc2
          show pendCnt (createdState s u i) b0.id ≤ 1
          rw [hp]
          exact inv.pendLe b0 hb0
    · intro b' hb'
      rw [hbooks] at hb'
      obtain ⟨b1, hb1, rfl⟩ := List.mem_map.mp hb'
      obtain ⟨b0, hb0, rfl⟩ := List.mem_map.mp hb1
      rw [hg b0]
      by_cases hc1 : b0.id = i.requestedBookId
      · rw [if_pos hc1]
        obtain ⟨hp, ha, ho⟩ := hcase1 b0 hc1
        show apprReqCnt (createdState s u i) b0.id ≤ 1
        omega
      · rw [if_neg hc1]
        by_cases hc2 : b0.id = ob
        · rw [if_pos hc2]
          obtain ⟨hp, ha, ho⟩ := hcase2 b0 hc2
          show apprReqCnt (createdState s u i) b0.id ≤ 1
          omega
        · rw [if_neg hc2]
          obtain ⟨hp, ha, ho⟩ := hcase3 b0 hc1 hc2
          show apprReqCnt (createdState s u i) b0.id ≤ 1
          rw [ha]
          exact inv.apprReqLe b0 hb0
    · intro b' hb'
      rw [hbooks] at hb'
      obtain ⟨b1, hb1, rfl⟩ := List.mem_map.mp hb'
      obtain ⟨b0, hb0, rfl⟩ := List.mem_map.mp hb1
      rw [hg b0]
      by_cases hc1 : b0.id = i.requestedBookId
      · rw [if_pos hc1]
        obtain ⟨hp, ha, ho⟩ := hcase1 b0 hc1
        show apprOffCnt (createdState s u i) b0.id ≤ 1
        omega
      · rw [if_neg hc1]
        by_cases hc2 : b0.id = ob
        · rw [if_pos hc2]
          obtain ⟨hp, ha, ho⟩ := hcase2 b0 hc2
          show apprOffCnt (createdState s u i) b0.id ≤ 1
          omega
        · rw [if_neg hc2]
          obtain ⟨hp, ha, ho⟩ := hcase3 b0 hc1 hc2
          show apprOffCnt (createdState s u i) b0.id ≤ 1
          rw [ho]
          exact inv.apprOffLe b0 hb0
    · intro b' hb'
      rw [hbooks] at hb'
      obtain ⟨b1, hb1, rfl⟩ := List.mem_map.mp hb'
      obtain ⟨b0, hb0, rfl⟩ := List.mem_map.mp hb1
      rw [hg b0]
      by_cases hc1 : b0.id = i.requestedBookId
      · rw [if_pos hc1]
        obtain ⟨hp, ha, ho⟩ := hcase1 b0 hc1
        show pendCnt (createdState s u i) b0.id = 0 ∨ apprOffCnt (createdState s u i) b0.id = 0
        exact Or.inr ho
      · rw [if_neg hc1]
        by_cases hc2 : b0.id = ob
        · rw [if_pos hc2]
          obtain ⟨hp, ha, ho⟩ := hcase2 b0 hc2
          show pendCnt (createdState s u i) b0.id = 0 ∨
            apprOffCnt (createdState s u i) b0.id = 0
          exact Or.inr ho
        · rw [if_neg hc2]
          obtain ⟨hp, ha, ho⟩ := hcase3 b0 hc1 hc2
          show pendCnt (createdState s u i) b0.id = 0 ∨
            apprOffCnt (createdState s u i) b0.id = 0
          rw [hp, ho]
          exact inv.excl b0 hb0

/-! ### Preservation of the invariant by updateTransaction -/

theorem cnt_shift {l : List Txn} {t : Txn} {st : TxStatus} {p : Txn → Bool}
    (ht : t ∈ l) (hn : (l.map (fun x => x.id)).Nodup)
    (hp : p t = true) (hp' : p { t with status := st } = false) :
    (l.map (updTxn t.id st)).countP p + 1 = l.countP p := by
  have hk := countP_map_updTxn p l t st ht hn
  rw [hp, hp'] at hk
  simpa using hk

theorem cnt_gain {l : List Txn} {t : Txn} {st : TxStatus} {p : Txn → Bool}
    (ht : t ∈ l) (hn : (l.map (fun x => x.id)).Nodup)
    (hp : p t = false) (hp' : p { t with status := st } = true) :
    (l.map (updTxn t.id st)).countP p = l.countP p + 1 := by
  have hk := countP_map_updTxn p l t st ht hn
  rw [hp, hp'] at hk
  simpa using hk

theorem cnt_same {l : List Txn} {t : Txn} {st : TxStatus} {p : Txn → Bool}
    (ht : t ∈ l) (hn : (l.map (fun x => x.id)).Nodup)
    (h : p t = p { t with status := st }) :
    (l.map (updTxn t.id st)).countP p = l.countP p := by
  have hk := countP_map_updTxn p l t st ht hn
  rw [h] at hk
  omega

theorem rejectedState_transactions (s : DB) (tid : Nat) (txn : Txn) :
    (rejectedState s tid txn).transactions
      = s.transactions.map (updTxn tid TxStatus.rejected) := by
  unfold rejectedState
  cases txn.offeredBookId <;> rfl

theorem rejectedState_books_none (s : DB) (tid : Nat) (txn : Txn)
    (h : txn.offeredBookId = none) :
    (rejectedState s tid txn).books
      = s.books.map (updBook txn.requestedBookId "available") := by
  unfold rejectedState
  rw [h]
  rfl

theorem rejectedState_books_some (s : DB) (tid : Nat) (txn : Txn) (ob : Nat)
    (h : txn.offeredBookId = some ob) :
    (rejectedState s tid txn).books
      = (s.books.map (updBook ob "available")).map
          (updBook txn.requestedBookId "available") := by
  unfold rejectedState
  rw [h]
  rfl

/-- A pending transaction pins its requested book: the pending-reference count of the
requested book is exactly one, the book row is pending, and no approved transaction
requests or offers it. -/
theorem pending_txn_book_facts {s : DB} (inv : StateInv s) {txn : Txn} {book : Book}
    (htmem : txn ∈ s.transactions) (hpend : txn.status = TxStatus.pending)
    (hbmem : book ∈ s.books) (hbid : book.id = txn.requestedBookId) :
    pendCnt s txn.requestedBookId = 1 ∧ book.status = "pending" ∧
    apprReqCnt s txn.requestedBookId = 0 ∧ apprOffCnt s txn.requestedBookId = 0 := by
  have hp : isPendRef txn.requestedBookId txn = true :=
    decide_eq_true ⟨hpend, Or.inl rfl⟩
  have hpos : 0 < pendCnt s txn.requestedBookId :=
    List.countP_pos_iff.mpr ⟨txn, htmem, hp⟩
  have hle := inv.pendLe book hbmem
  rw [hbid] at hle
  have hpend1 : pendCnt s txn.requestedBookId = 1 := by omega
  have hbstat : book.status = "pending" := by
    have hiff := inv.pendIff book hbmem
    rw [hbid] at hiff
    exact hiff.mpr (by omega)
  have happr : apprReqCnt s txn.requestedBookId = 0 := by
    have hiff := inv.apprIff book hbmem
    rw [hbid, hbstat] at hiff
    by_contra hc
    exact absurd (hiff.mpr (by omega)) (by decide)
  have hoff : apprOffCnt s txn.requestedBookId = 0 := by
    have hex := inv.excl book hbmem
    rw [hbid] at hex
    omega
  exact ⟨hpend1, hbstat, happr, hoff⟩

/-- The same pinning facts for the offered book of a pending Exchange transaction. -/
theorem pending_txn_offered_facts {s : DB} (inv : StateInv s) {txn : Txn} {obk : Book}
    {ob : Nat} (htmem : txn ∈ s.transactions) (hpend : txn.status = TxStatus.pending)
    (hob : txn.offeredBookId = some ob)
    (hobmem : obk ∈ s.books) (hobid : obk.id = ob) :
    pendCnt s ob = 1 ∧ obk.status = "pending" ∧
    apprReqCnt s ob = 0 ∧ apprOffCnt s ob = 0 := by
  have hp : isPendRef ob txn = true :=
    decide_eq_true ⟨hpend, Or.inr hob⟩
  have hpos : 0 < pendCnt s ob := List.countP_pos_iff.mpr ⟨txn, htmem, hp⟩
  have hle := inv.pendLe obk hobmem
  rw [hobid] at hle
  have hpend1 : pendCnt s ob = 1 := by omega
  have hstat : obk.status = "pending" := by
    have hiff := inv.pendIff obk hobmem
    rw [hobid] at hiff
    exact hiff.mpr (by omega)
  have happr : apprReqCnt s ob = 0 := by
    have hiff := inv.apprIff obk hobmem
    rw [hobid, hstat] at hiff
    by_contra hc
    exact absurd (hiff.mpr (by omega)) (by decide)
  have hoff : apprOffCnt s ob = 0 := by
    have hex := inv.excl obk hobmem
    rw [hobid] at hex
    omega
  exact ⟨hpend1, hstat, happr, hoff⟩

theorem reject_preserves_inv {s : DB} {tid : Nat} {txn : Txn} {book : Book}
    (inv : StateInv s) (hft : findTxn s tid = some txn)
    (hfb : findBook s txn.requestedBookId = some book)
    (hpend : txn.status = TxStatus.pending) :
    StateInv (rejectedState s tid txn) := by
  have htmem := findTxn_some_mem hft
  have htid := findTxn_some_id hft
  have hbmem := findBook_some_mem hfb
  have hbid := findBook_some_id hfb
  obtain ⟨hpendB, hbstat, happrB, hoffB⟩ :=
    pending_txn_book_facts inv htmem hpend hbmem hbid
  have htxns : (rejectedState s tid txn).transactions
      = s.transactions.map (updTxn txn.id TxStatus.rejected) := by
    rw [rejectedState_transactions, htid]
  have hPt : ∀ bid, isPendRef bid txn
      = decide (txn.requestedBookId = bid ∨ txn.offeredBookId = some bid) := by
    intro bid
    unfold isPendRef
    rw [hpend]
    simp
  have hPt' : ∀ bid, isPendRef bid { txn with status := TxStatus.rejected } = false := by
    intro bid
    unfold isPendRef
    simp
  have hAt : ∀ bid, isApprReq bid txn = false := by
    intro bid
    unfold isApprReq
    rw [hpend]
    simp
  have hAt' : ∀ bid, isApprReq bid { txn with status := TxStatus.rejected } = false := by
    intro bid
    unfold isApprReq
    simp
  have hOt : ∀ bid, isApprOff bid txn = false := by
    intro bid
    unfold isApprOff
    rw [hpend]
    simp
  have hOt' : ∀ bid, isApprOff bid { txn with status := TxStatus.rejected } = false := by
    intro bid
    unfold isApprOff
    simp
  have hpend_hit : ∀ bid, (txn.requestedBookId = bid ∨ txn.offeredBookId = some bid) →
      pendCnt (rejectedState s tid txn) bid + 1 = pendCnt s bid := by
    intro bid hc
    unfold pendCnt
    rw [htxns]
    exact cnt_shift htmem inv.txnIdsNodup (by rw [hPt]; exact decide_eq_true hc) (hPt' bid)
  have hpend_miss : ∀ bid, ¬(txn.requestedBookId = bid ∨ txn.offeredBookId = some bid) →
      pendCnt (rejectedState s tid txn) bid = pendCnt s bid := by
    intro bid hc
    unfold pendCnt
    rw [htxns]
    refine cnt_same htmem inv.txnIdsNodup ?_
    rw [hPt bid, hPt' bid]
    exact decide_eq_false hc
  have happr_same : ∀ bid, apprReqCnt (rejectedState s tid txn) bid = apprReqCnt s bid := by
    intro bid
    unfold apprReqCnt
    rw [htxns]
    exact cnt_same htmem inv.txnIdsNodup (by rw [hAt bid, hAt' bid])
  have hoff_same : ∀ bid, apprOffCnt (rejectedState s tid txn) bid = apprOffCnt s bid := by
    intro bid
    unfold apprOffCnt
    rw [htxns]
    exact cnt_same htmem inv.txnIdsNodup (by rw [hOt bid, hOt' bid])
  have htxnnodup : ((rejectedState s tid txn).transactions.map (fun t => t.id)).Nodup := by
    rw [htxns, map_updTxn_ids]
    exact inv.txnIdsNodup
  cases hoffcase : txn.offeredBookId with
  | none =>
    have hbooks := rejectedState_books_none s tid txn hoffcase
    have hreqxst : ∀ x, (∃ b ∈ (rejectedState s tid txn).books, b.id = x)
        ↔ (∃ b ∈ s.books, b.id = x) := by
      intro x
      rw [hbooks]
      exact bookIdExists_map _ _ _ _
    have hcase1 : ∀ b0 : Book, b0.id = txn.requestedBookId →
        pendCnt (rejectedState s tid txn) b0.id = 0 ∧
        apprReqCnt (rejectedState s tid txn) b0.id = 0 ∧
        apprOffCnt (rejectedState s tid txn) b0.id = 0 := by
      intro b0 hc
      have h1 := hpend_hit b0.id (Or.inl hc.symm)
      have h2 : pendCnt s b0.id = 1 := by
        rw [hc]
        exact hpendB
      refine ⟨by omega, ?_, ?_⟩
      · rw [happr_same, hc, happrB]
      · rw [hoff_same, hc, hoffB]
    have hcase2 : ∀ b0 : Book, b0.id ≠ txn.requestedBookId →
        pendCnt (rejectedState s tid txn) b0.id = pendCnt s b0.id ∧
        apprReqCnt (rejectedState s tid txn) b0.id = apprReqCnt s b0.id ∧
        apprOffCnt (rejectedState s tid txn) b0.id = apprOffCnt s b0.id := by
      intro b0 hc
      refine ⟨?_, happr_same _, hoff_same _⟩
      refine hpend_miss b0.id ?_
      rintro (hx | hx)
      · exact hc hx.symm
      · rw [hoffcase] at hx
        cases hx
    refine ⟨?_, htxnnodup, ?_, ?_, ?_, ?_, ?_, ?_, ?_, ?_⟩
    · rw [hbooks, map_updBook_ids]
      exact inv.bookIdsNodup
    · intro t0 ht0
      rw [htxns] at ht0
      obtain ⟨t1, ht1, rfl⟩ := List.mem_map.mp ht0
      rw [updTxn_requestedBookId]
      exact (hreqxst _).mpr (inv.reqExists t1 ht1)
    · intro t0 ht0 ob' hob'
      rw [htxns] at ht0
      obtain ⟨t1, ht1, rfl⟩ := List.mem_map.mp ht0
      rw [updTxn_offeredBookId] at hob'
      rw [updTxn_requestedBookId]
      obtain ⟨hex, hne⟩ := inv.offExists t1 ht1 ob' hob'
      exact ⟨(hreqxst _).mpr hex, hne⟩
    · intro b' hb'
      rw [hbooks] at hb'
      obtain ⟨b0, hb0, rfl⟩ := List.mem_map.mp hb'
      rw [updBook_id]
      by_cases hc : b0.id = txn.requestedBookId
      · obtain ⟨hp, ha, ho⟩ := hcase1 b0 hc
        rw [show updBook txn.requestedBookId "available" b0
            = { b0 with status := "available" } from by unfold updBook; rw [if_pos hc]]
        show "available" = "pending" ↔
          0 < pendCnt (rejectedState s tid txn) b0.id + apprOffCnt (rejectedState s tid txn) b0.id
        rw [hp, ho]
        simp
      · obtain ⟨hp, ha, ho⟩ := hcase2 b0 hc
        rw [updBook_of_ne _ _ _ hc, hp, ho]
        exact inv.pendIff b0 hb0
    · intro b' hb'
      rw [hbooks] at hb'
      obtain ⟨b0, hb0, rfl⟩ := List.mem_map.mp hb'
      rw [updBook_id]
      by_cases hc : b0.id = txn.requestedBookId
      · obtain ⟨hp, ha, ho⟩ := hcase1 b0 hc
        rw [show updBook txn.requestedBookId "available" b0
            = { b0 with status := "available" } from by unfold updBook; rw [if_pos hc]]
        show "available" = "approved" ↔ 0 < apprReqCnt (rejectedState s tid txn) b0.id
        rw [ha]
        simp
      · obtain ⟨hp, ha, ho⟩ := hcase2 b0 hc
        rw [updBook_of_ne _ _ _ hc, ha]
        exact inv.apprIff b0 hb0
    · intro b' hb'
      rw [hbooks] at hb'
      obtain ⟨b0, hb0, rfl⟩ := List.mem_map.mp hb'
      rw [updBook_id]
      by_cases hc : b0.id = txn.requestedBookId
      · obtain ⟨hp, ha, ho⟩ := hcase1 b0 hc
        omega
      · obtain ⟨hp, ha, ho⟩ := hcase2 b0 hc
        rw [hp]
        exact inv.pendLe b0 hb0
    · intro b' hb'
      rw [hbooks] at hb'
      obtain ⟨b0, hb0, rfl⟩ := List.mem_map.mp hb'
      rw [updBook_id]
      by_cases hc : b0.id = txn.requestedBookId
      · obtain ⟨hp, ha, ho⟩ := hcase1 b0 hc
        omega
      · obtain ⟨hp, ha, ho⟩ := hcase2 b0 hc
        rw [ha]
        exact inv.apprReqLe b0 hb0
    · intro b' hb'
      rw [hbooks] at hb'
      obtain ⟨b0, hb0, rfl⟩ := List.mem_map.mp hb'
      rw [updBook_id]
      by_cases hc : b0.id = txn.requestedBookId
      · obtain ⟨hp, ha, ho⟩ := hcase1 b0 hc
        omega
      · obtain ⟨hp, ha, ho⟩ := hcase2 b0 hc
        rw [ho]
        exact inv.apprOffLe b0 hb0
    · intro b' hb'
      rw [hbooks] at hb'
      obtain ⟨b0, hb0, rfl⟩ := List.mem_map.mp hb'
      rw [updBook_id]
      by_cases hc : b0.id = txn.requestedBookId
      · obtain ⟨hp, ha, ho⟩ := hcase1 b0 hc
        exact Or.inl hp
      · obtain ⟨hp, ha, ho⟩ := hcase2 b0 hc
        rw [hp, ho]
        exact inv.excl b0 hb0
  | some ob =>
    obtain ⟨⟨obk0, hobk0mem, hobk0id⟩, hobne⟩ := inv.offExists txn htmem ob hoffcase
    obtain ⟨hpendOb, hobstat, happrOb, hoffOb⟩ :=
      pending_txn_offered_facts inv htmem hpend hoffcase hobk0mem hobk0id
    have hbooks := rejectedState_books_some s tid txn ob hoffcase
    have hreqxst : ∀ x, (∃ b ∈ (rejectedState s tid txn).books, b.id = x)
        ↔ (∃ b ∈ s.books, b.id = x) := by
      intro x
      rw [hbooks, bookIdExists_map]
      exact bookIdExists_map _ _ _ _
    have hg : ∀ b0 : Book, updBook txn.requestedBookId "available" (updBook ob "available" b0)
        = if b0.id = txn.requestedBookId then { b0 with status := "available" }
          else if b0.id = ob then { b0 with status := "available" } else b0 := by
      intro b0
      by_cases hc : b0.id = txn.requestedBookId
      · rw [if_pos hc]
        rw [updBook_of_ne ob "available" b0 (by rw [hc]; exact fun hx => hobne hx.symm)]
        unfold updBook
        rw [if_pos hc]
      · rw [if_neg hc]
        by_cases hc2 : b0.id = ob
        · rw [if_pos hc2]
          rw [show updBook ob "available" b0 = { b0 with status := "available" } from by
            unfold updBook; rw [if_pos hc2]]
          rw [updBook_of_ne txn.requestedBookId "available"
            { b0 with status := "available" } hc]
        · rw [if_neg hc2, updBook_of_ne _ _ _ hc2, updBook_of_ne _ _ _ hc]
    have hcase1 : ∀ b0 : Book, b0.id = txn.requestedBookId →
        pendCnt (rejectedState s tid txn) b0.id = 0 ∧
        apprReqCnt (rejectedState s tid txn) b0.id = 0 ∧
        apprOffCnt (rejectedState s tid txn) b0.id = 0 := by
      intro b0 hc
      have h1 := hpend_hit b0.id (Or.inl hc.symm)
      have h2 : pendCnt s b0.id = 1 := by
        rw [hc]
        exact hpendB
      refine ⟨by omega, ?_, ?_⟩
      · rw [happr_same, hc, happrB]
      · rw [hoff_same, hc, hoffB]
    have hcase2 : ∀ b0 : Book, b0.id = ob →
        pendCnt (rejectedState s tid txn) b0.id = 0 ∧
        apprReqCnt (rejectedState s tid txn) b0.id = 0 ∧
        apprOffCnt (rejectedState s tid txn) b0.id = 0 := by
      intro b0 hc
      have h1 := hpend_hit b0.id (Or.inr (by rw [hoffcase, hc]))
      rw [hc] at h1 ⊢
      refine ⟨by omega, ?_, ?_⟩
      · rw [happr_same, happrOb]
      · rw [hoff_same, hoffOb]
    have hcase3 : ∀ b0 : Book, b0.id ≠ txn.requestedBookId → b0.id ≠ ob →
        pendCnt (rejectedState s tid txn) b0.id = pendCnt s b0.id ∧
        apprReqCnt (rejectedState s tid txn) b0.id = apprReqCnt s b0.id ∧
        apprOffCnt (rejectedState s tid txn) b0.id = apprOffCnt s b0.id := by
      intro b0 hc1 hc2
      refine ⟨?_, happr_same _, hoff_same _⟩
      refine hpend_miss b0.id ?_
      rintro (hx | hx)
      · exact hc1 hx.symm
      · rw [hoffcase] at hx
        exact hc2 (by simpa using hx.symm)
    refine ⟨?_, htxnnodup, ?_, ?_, ?_, ?_, ?_, ?_, ?_, ?_⟩
    · rw [hbooks, map_updBook_ids, map_updBook_ids]
      exact inv.bookIdsNodup
    · intro t0 ht0
      rw [htxns] at ht0
      obtain ⟨t1, ht1, rfl⟩ := List.mem_map.mp ht0
      rw [updTxn_requestedBookId]
      exact (hreqxst _).mpr (inv.reqExists t1 ht1)
    · intro t0 ht0 ob' hob'
      rw [htxns] at ht0
      obtain ⟨t1, ht1, rfl⟩ := List.mem_map.mp ht0
      rw [updTxn_offeredBookId] at hob'
      rw [updTxn_requestedBookId]
      obtain ⟨hex, hne⟩ := inv.offExists t1 ht1 ob' hob'
      exact ⟨(hreqxst _).mpr hex, hne⟩
    · intro b' hb'
      rw [hbooks] at hb'
      obtain ⟨b1, hb1, rfl⟩ := List.mem_map.mp hb'
      obtain ⟨b0, hb0, rfl⟩ := List.mem_map.mp hb1
      rw [hg b0]
      by_cases hc : b0.id = txn.requestedBookId
      · rw [if_pos hc]
        obtain ⟨hp, ha, ho⟩ := hcase1 b0 hc
        show "available" = "pending" ↔ 0 < pendCnt (rejectedState s tid txn) b0.id
          + apprOffCnt (rejectedState s tid txn) b0.id
        rw [hp, ho]
        simp
      · rw [if_neg hc]
        by_cases hc2 : b0.id = ob
        · rw [if_pos hc2]
          obtain ⟨hp, ha, ho⟩ := hcase2 b0 hc2
          show "available" = "pending" ↔ 0 < pendCnt (rejectedState s tid txn) b0.id
            + apprOffCnt (rejectedState s tid txn) b0.id
          rw [hp, ho]
          simp
        · rw [if_neg hc2]
          obtain ⟨hp, ha, ho⟩ := hcase3 b0 hc hc2
          rw [hp, ho]
          exact inv.pendIff b0 hb0
    · intro b' hb'
      rw [hbooks] at hb'
      obtain ⟨b1, hb1, rfl⟩ := List.mem_map.mp hb'
      obtain ⟨b0, hb0, rfl⟩ := List.mem_map.mp hb1
      rw [hg b0]
      by_cases hc : b0.id = txn.requestedBookId
      · rw [if_pos hc]
        obtain ⟨hp, ha, ho⟩ := hcase1 b0 hc
        show "available" = "approved" ↔ 0 < apprReqCnt (rejectedState s tid txn) b0.id
        rw [ha]
        simp
      · rw [if_neg hc]
        by_cases hc2 : b0.id = ob
        · rw [if_pos hc2]
          obtain ⟨hp, ha, ho⟩ := hcase2 b0 hc2
          show "available" = "approved" ↔ 0 < apprReqCnt (rejectedState s tid txn) b0.id
          rw [ha]
          simp
        · rw [if_neg hc2]
          obtain ⟨hp, ha, ho⟩ := hcase3 b0 hc hc2
          rw [ha]
          exact inv.apprIff b0 hb0
    · intro b' hb'
      rw [hbooks] at hb'
      obtain ⟨b1, hb1, rfl⟩ := List.mem_map.mp hb'
      obtain ⟨b0, hb0, rfl⟩ := List.mem_map.mp hb1
      rw [hg b0]
      by_cases hc : b0.id = txn.requestedBookId
      · rw [if_pos hc]
        obtain ⟨hp, ha, ho⟩ := hcase1 b0 hc
        show pendCnt (rejectedState s tid txn) b0.id ≤ 1
        omega
      · rw [if_neg hc]
        by_cases hc2 : b0.id = ob
        · rw [if_pos hc2]
          obtain ⟨hp, ha, ho⟩ := hcase2 b0 hc2
          show pendCnt (rejectedState s tid txn) b0.id ≤ 1
          omega
        · rw [if_neg hc2]
          obtain ⟨hp, ha, ho⟩ := hcase3 b0 hc hc2
          show pendCnt (rejectedState s tid txn) b0.id ≤ 1
          rw [hp]
          exact inv.pendLe b0 hb0
    · intro b' hb'
      rw [hbooks] at hb'
      obtain ⟨b1, hb1, rfl⟩ := List.mem_map.mp hb'
      obtain ⟨b0, hb0, rfl⟩ := List.mem_map.mp hb1
      rw [hg b0]
      by_cases hc : b0.id = txn.requestedBookId
      · rw [if_pos hc]
        obtain ⟨hp, ha, ho⟩ := hcase1 b0 hc
        show apprReqCnt (rejectedState s tid txn) b0.id ≤ 1
        omega
      · rw [if_neg hc]
        by_cases hc2 : b0.id = ob
        · rw [if_pos hc2]
          obtain ⟨hp, ha, ho⟩ := hcase2 b0 hc2
          show apprReqCnt (rejectedState s tid txn) b0.id ≤ 1
          omega
        · rw [if_neg hc2]
          obtain ⟨hp, ha, ho⟩ := hcase3 b0 hc hc2
          show apprReqCnt (rejectedState s tid txn) b0.id ≤ 1
          rw [ha]
          exact inv.apprReqLe b0 hb0
    · intro b' hb'
      rw [hbooks] at hb'
      obtain ⟨b1, hb1, rfl⟩ := List.mem_map.mp hb'
      obtain ⟨b0, hb0, rfl⟩ := List.mem_map.mp hb1
      rw [hg b0]
      by_cases hc : b0.id = txn.requestedBookId
      · rw [if_pos hc]
        obtain ⟨hp, ha, ho⟩ := hcase1 b0 hc
        show apprOffCnt (rejectedState s tid txn) b0.id ≤ 1
        omega
      · rw [if_neg hc]
        by_cases hc2 : b0.id = ob
        · rw [if_pos hc2]
          obtain ⟨hp, ha, ho⟩ := hcase2 b0 hc2
          show apprOffCnt (rejectedState s tid txn) b0.id ≤ 1
          omega
        · rw [if_neg hc2]
          obtain ⟨hp, ha, ho⟩ := hcase3 b0 hc hc2
          show apprOffCnt (rejectedState s tid txn) b0.id ≤ 1
          rw [ho]
          exact inv.apprOffLe b0 hb0
    · intro b' hb'
      rw [hbooks] at hb'
      obtain ⟨b1, hb1, rfl⟩ := List.mem_map.mp hb'
      obtain ⟨b0, hb0, rfl⟩ := List.mem_map.mp hb1
      rw [hg b0]
      by_cases hc : b0.id = txn.requestedBookId
      · rw [if_pos hc]
        obtain ⟨hp, ha, ho⟩ := hcase1 b0 hc
        show pendCnt (rejectedState s tid txn) b0.id = 0 ∨
          apprOffCnt (rejectedState s tid txn) b0.id = 0
        exact Or.inl hp
      · rw [if_neg hc]
        by_cases hc2 : b0.id = ob
        · rw [if_pos hc2]
          obtain ⟨hp, ha, ho⟩ := hcase2 b0 hc2
          show pendCnt (rejectedState s tid txn) b0.id = 0 ∨
            apprOffCnt (rejectedState s tid txn) b0.id = 0
          exact Or.inl hp
        · rw [if_neg hc2]
          obtain ⟨hp, ha, ho⟩ := hcase3 b0 hc hc2
          show pendCnt (rejectedState s tid txn) b0.id = 0 ∨
            apprOffCnt (rejectedState s tid txn) b0.id = 0
          rw [hp, ho]
          exact inv.excl b0 hb0

theorem approve_preserves_inv {s : DB} {tid : Nat} {txn : Txn} {book : Book}
    (inv : StateInv s) (hft : findTxn s tid = some txn)
    (hfb : findBook s txn.requestedBookId = some book)
    (hpend : txn.status = TxStatus.pending) :
    StateInv (approvedState s tid txn) := by
  have htmem := findTxn_some_mem hft
  have htid := findTxn_some_id hft
  have hbmem := findBook_some_mem hfb
  have hbid := findBook_some_id hfb
  obtain ⟨hpendB, hbstat, happrB, hoffB⟩ :=
    pending_txn_book_facts inv htmem hpend hbmem hbid
  have hsibs : ∀ ot ∈ (setTxnStatus s tid TxStatus.approved).transactions.filter
      (fun t => t.requestedBookId == txn.requestedBookId),
      ot.id = tid ∨ ot.status ≠ TxStatus.pending := by
    intro ot hot
    obtain ⟨hotmem, hotreq⟩ := List.mem_filter.mp hot
    rw [setTxnStatus_transactions] at hotmem
    obtain ⟨t0, ht0, rfl⟩ := List.mem_map.mp hotmem
    by_cases hc : t0.id = tid
    · left
      rw [updTxn_id]
      exact hc
    · right
      rw [updTxn_of_ne _ _ _ hc] at hotreq ⊢
      intro hps
      have hreq : t0.requestedBookId = txn.requestedBookId := by simpa using hotreq
      have hne : t0 ≠ txn := fun he => hc (by rw [he, htid])
      have h2 := two_le_countP (isPendRef txn.requestedBookId) s.transactions txn t0
        htmem ht0 (fun he => hne he.symm) (decide_eq_true ⟨hpend, Or.inl rfl⟩)
        (decide_eq_true ⟨hps, Or.inl hreq⟩)
      unfold pendCnt at hpendB
      omega
  have happst : approvedState s tid txn
      = setBookStatus (setTxnStatus s tid TxStatus.approved)
          txn.requestedBookId "approved" := by
    show setBookStatus
        (cascade tid (setTxnStatus s tid TxStatus.approved)
          (List.filter (fun t => t.requestedBookId == txn.requestedBookId)
            (setTxnStatus s tid TxStatus.approved).transactions))
        txn.requestedBookId "approved"
      = setBookStatus (setTxnStatus s tid TxStatus.approved) txn.requestedBookId "approved"
    rw [cascade_eq_self _ _ _ hsibs]
  have htxns : (approvedState s tid txn).transactions
      = s.transactions.map (updTxn txn.id TxStatus.approved) := by
    rw [happst, setBookStatus_transactions, setTxnStatus_transactions, htid]
  have hbooks : (approvedState s tid txn).books
      = s.books.map (updBook txn.requestedBookId "approved") := by
    rw [happst, setBookStatus_books, setTxnStatus_books]
  have hPt : ∀ bid, isPendRef bid txn
      = decide (txn.requestedBookId = bid ∨ txn.offeredBookId = some bid) := by
    intro bid
    unfold isPendRef
    rw [hpend]
    simp
  have hPt' : ∀ bid, isPendRef bid { txn with status := TxStatus.approved } = false := by
    intro bid
    unfold isPendRef
    simp
  have hAt : ∀ bid, isApprReq bid txn = false := by
    intro bid
    unfold isApprReq
    rw [hpend]
    simp
  have hAt' : ∀ bid, isApprReq bid { txn with status := TxStatus.approved }
      = decide (txn.requestedBookId = bid) := by
    intro bid
    unfold isApprReq
    simp
  have hOt : ∀ bid, isApprOff bid txn = false := by
    intro bid
    unfold isApprOff
    rw [hpend]
    simp
  have hOt' : ∀ bid, isApprOff bid { txn with status := TxStatus.approved }
      = decide (txn.offeredBookId = some bid) := by
    intro bid
    unfold isApprOff
    simp
  have hpend_hit : ∀ bid, (txn.requestedBookId = bid ∨ txn.offeredBookId = some bid) →
      pendCnt (approvedState s tid txn) bid + 1 = pendCnt s bid := by
    intro bid hc
    unfold pendCnt
    rw [htxns]
    exact cnt_shift htmem inv.txnIdsNodup (by rw [hPt]; exact decide_eq_true hc) (hPt' bid)
  have hpend_miss : ∀ bid, ¬(txn.requestedBookId = bid ∨ txn.offeredBookId = some bid) →
      pendCnt (approvedState s tid txn) bid = pendCnt s bid := by
    intro bid hc
    unfold pendCnt
    rw [htxns]
    refine cnt_same htmem inv.txnIdsNodup ?_
    rw [hPt bid, hPt' bid]
    exact decide_eq_false hc
  have happr_hit : ∀ bid, txn.requestedBookId = bid →
      apprReqCnt (approvedState s tid txn) bid = apprReqCnt s bid + 1 := by
    intro bid hc
    unfold apprReqCnt
    rw [htxns]
    exact cnt_gain htmem inv.txnIdsNodup (hAt bid) (by rw [hAt']; exact decide_eq_true hc)
  have happr_miss : ∀ bid, txn.requestedBookId ≠ bid →
      apprReqCnt (approvedState s tid txn) bid = apprReqCnt s bid := by
    intro bid hc
    unfold apprReqCnt
    rw [htxns]
    refine cnt_same htmem inv.txnIdsNodup ?_
    rw [hAt bid, hAt' bid]
    exact (decide_eq_false hc).symm ▸ rfl
  have hoffA_hit : ∀ bid, txn.offeredBookId = some bid →
      apprOffCnt (approvedState s tid txn) bid = apprOffCnt s bid + 1 := by
    intro bid hc
    unfold apprOffCnt
    rw [htxns]
    exact cnt_gain htmem inv.txnIdsNodup (hOt bid) (by rw [hOt']; exact decide_eq_true hc)
  have hoffA_miss : ∀ bid, txn.offeredBookId ≠ some bid →
      apprOffCnt (approvedState s tid txn) bid = apprOffCnt s bid := by
    intro bid hc
    unfold apprOffCnt
    rw [htxns]
    refine cnt_same htmem inv.txnIdsNodup ?_
    rw [hOt bid, hOt' bid]
    exact (decide_eq_false hc).symm ▸ rfl
  have htxnnodup : ((approvedState s tid txn).transactions.map (fun t => t.id)).Nodup := by
    rw [htxns, map_updTxn_ids]
    exact inv.txnIdsNodup
  have hreqxst : ∀ x, (∃ b ∈ (approvedState s tid txn).books, b.id = x)
      ↔ (∃ b ∈ s.books, b.id = x) := by
    intro x
    rw [hbooks]
    exact bookIdExists_map _ _ _ _
  have hcase1 : ∀ b0 : Book, b0.id = txn.requestedBookId →
      pendCnt (approvedState s tid txn) b0.id = 0 ∧
      apprReqCnt (approvedState s tid txn) b0.id = 1 ∧
      apprOffCnt (approvedState s tid txn) b0.id = 0 := by
    intro b0 hc
    have h1 := hpend_hit b0.id (Or.inl hc.symm)
    have h2 : pendCnt s b0.id = 1 := by
      rw [hc]
      exact hpendB
    refine ⟨by omega, ?_, ?_⟩
    · rw [happr_hit b0.id hc.symm, hc, happrB]
    · refine Eq.trans (hoffA_miss b0.id ?_) (by rw [hc]; exact hoffB)
      intro hx
      obtain ⟨⟨bx, hbx, hbxid⟩, hne⟩ := inv.offExists txn htmem b0.id hx
      exact hne hc
  refine ⟨?_, htxnnodup, ?_, ?_, ?_, ?_, ?_, ?_, ?_, ?_⟩
  · rw [hbooks, map_updBook_ids]
    exact inv.bookIdsNodup
  · intro t0 ht0
    rw [htxns] at ht0
    obtain ⟨t1, ht1, rfl⟩ := List.mem_map.mp ht0
    rw [updTxn_requestedBookId]
    exact (hreqxst _).mpr (inv.reqExists t1 ht1)
  · intro t0 ht0 ob' hob'
    rw [htxns] at ht0
    obtain ⟨t1, ht1, rfl⟩ := List.mem_map.mp ht0
    rw [updTxn_offeredBookId] at hob'
    rw [updTxn_requestedBookId]
    obtain ⟨hex, hne⟩ := inv.offExists t1 ht1 ob' hob'
    exact ⟨(hreqxst _).mpr hex, hne⟩
  · intro b' hb'
    rw [hbooks] at hb'
    obtain ⟨b0, hb0, rfl⟩ := List.mem_map.mp hb'
    rw [updBook_id]
    by_cases hc : b0.id = txn.requestedBookId
    · obtain ⟨hp, ha, ho⟩ := hcase1 b0 hc
      rw [show updBook txn.requestedBookId "approved" b0
          = { b0 with status := "approved" } from by unfold updBook; rw [if_pos hc]]
      show "approved" = "pending" ↔
        0 < pendCnt (approvedState s tid txn) b0.id + apprOffCnt (approvedState s tid txn) b0.id
      rw [hp, ho]
      simp
    · rw [updBook_of_ne _ _ _ hc]
      by_cases hc2 : txn.offeredBookId = some b0.id
      · have h1 := hpend_hit b0.id (Or.inr hc2)
        have h2 := hoffA_hit b0.id hc2
        have h3 : 0 < pendCnt s b0.id := by
          have hq : isPendRef b0.id txn = true := decide_eq_true ⟨hpend, Or.inr hc2⟩
          exact List.countP_pos_iff.mpr ⟨txn, htmem, hq⟩
        have h4 : b0.status = "pending" := by
          have hiff := inv.pendIff b0 hb0
          exact hiff.mpr (by omega)
        rw [h4, h2]
        constructor
        · intro _
          omega
        · intro _
          rfl
      · have h1 := hpend_miss b0.id (by
          rintro (hx | hx)
          · exact hc hx.symm
          · exact hc2 hx)
        have h2 := hoffA_miss b0.id hc2
        rw [h1, h2]
        exact inv.pendIff b0 hb0
  · intro b' hb'
    rw [hbooks] at hb'
    obtain ⟨b0, hb0, rfl⟩ := List.mem_map.mp hb'
    rw [updBook_id]
    by_cases hc : b0.id = txn.requestedBookId
    · obtain ⟨hp, ha, ho⟩ := hcase1 b0 hc
      rw [show updBook txn.requestedBookId "approved" b0
          = { b0 with status := "approved" } from by unfold updBook; rw [if_pos hc]]
      show "approved" = "approved" ↔ 0 < apprReqCnt (approvedState s tid txn) b0.id
      rw [ha]
      simp
    · rw [updBook_of_ne _ _ _ hc]
      rw [happr_miss b0.id (fun hx => hc hx.symm)]
      exact inv.apprIff b0 hb0
  · intro b' hb'
    rw [hbooks] at hb'
    obtain ⟨b0, hb0, rfl⟩ := List.mem_map.mp hb'
    rw [updBook_id]
    by_cases hc : b0.id = txn.requestedBookId
    · obtain ⟨hp, ha, ho⟩ := hcase1 b0 hc
      show pendCnt (approvedState s tid txn) b0.id ≤ 1
      omega
    · by_cases hc2 : txn.offeredBookId = some b0.id
      · have h1 := hpend_hit b0.id (Or.inr hc2)
        have h4 := inv.pendLe b0 hb0
        show pendCnt (approvedState s tid txn) b0.id ≤ 1
        omega
      · have h1 := hpend_miss b0.id (by
          rintro (hx | hx)
          · exact hc hx.symm
          · exact hc2 hx)
        show pendCnt (approvedState s tid txn) b0.id ≤ 1
        rw [h1]
        exact inv.pendLe b0 hb0
  · intro b' hb'
    rw [hbooks] at hb'
    obtain ⟨b0, hb0, rfl⟩ := List.mem_map.mp hb'
    rw [updBook_id]
    by_cases hc : b0.id = txn.requestedBookId
    · obtain ⟨hp, ha, ho⟩ := hcase1 b0 hc
      show apprReqCnt (approvedState s tid txn) b0.id ≤ 1
      omega
    · show apprReqCnt (approvedState s tid txn) b0.id ≤ 1
      rw [happr_miss b0.id (fun hx => hc hx.symm)]
      exact inv.apprReqLe b0 hb0
  · intro b' hb'
    rw [hbooks] at hb'
    obtain ⟨b0, hb0, rfl⟩ := List.mem_map.mp hb'
    rw [updBook_id]
    by_cases hc : b0.id = txn.requestedBookId
    · obtain ⟨hp, ha, ho⟩ := hcase1 b0 hc
      show apprOffCnt (approvedState s tid txn) b0.id ≤ 1
      omega
    · by_cases hc2 : txn.offeredBookId = some b0.id
      · have h2 := hoffA_hit b0.id hc2
        have h3 : 0 < pendCnt s b0.id := by
          have hq : isPendRef b0.id txn = true := decide_eq_true ⟨hpend, Or.inr hc2⟩
          exact List.countP_pos_iff.mpr ⟨txn, htmem, hq⟩
        have h4 := inv.excl b0 hb0
        show apprOffCnt (approvedState s tid txn) b0.id ≤ 1
        omega
      · show apprOffCnt (approvedState s tid txn) b0.id ≤ 1
        rw [hoffA_miss b0.id hc2]
        exact inv.apprOffLe b0 hb0
  · intro b' hb'
    rw [hbooks] at hb'
    obtain ⟨b0, hb0, rfl⟩ := List.mem_map.mp hb'
    rw [updBook_id]
    by_cases hc : b0.id = txn.requestedBookId
    · obtain ⟨hp, ha, ho⟩ := hcase1 b0 hc
      show pendCnt (approvedState s tid txn) b0.id = 0 ∨
        apprOffCnt (approvedState s tid txn) b0.id = 0
      exact Or.inl hp
    · by_cases hc2 : txn.offeredBookId = some b0.id
      · have h1 := hpend_hit b0.id (Or.inr hc2)
        have h3 : 0 < pendCnt s b0.id := by
          have hq : isPendRef b0.id txn = true := decide_eq_true ⟨hpend, Or.inr hc2⟩
          exact List.countP_pos_iff.mpr ⟨txn, htmem, hq⟩
        have h4 := inv.pendLe b0 hb0
        show pendCnt (approvedState s tid txn) b0.id = 0 ∨
          apprOffCnt (approvedState s tid txn) b0.id = 0
        exact Or.inl (by omega)
      · have h1 := hpend_miss b0.id (by
          rintro (hx | hx)
          · exact hc hx.symm
          · exact hc2 hx)
        have h2 := hoffA_miss b0.id hc2
        show pendCnt (approvedState s tid txn) b0.id = 0 ∨
          apprOffCnt (approvedState s tid txn) b0.id = 0
        rw [h1, h2]
        exact inv.excl b0 hb0

theorem update_preserves_inv {s : DB} {u tid : Nat} {st : TxStatus} {s' : DB} {t' : Txn}
    (inv : StateInv s) (h : updateTransaction s u tid st = (s', .ok t')) : StateInv s' := by
  obtain ⟨hnz, txn, book, hft, hfb, howner, hpend, ht', hcase⟩ := updateTransaction_ok h
  rcases hcase with ⟨hst, rfl⟩ | ⟨hst, rfl⟩
  · exact approve_preserves_inv inv hft hfb hpend
  · exact reject_preserves_inv inv hft hfb hpend

/-- Every state reachable through the two transaction operations satisfies the
coupling invariant. -/
theorem reachable_inv {s : DB} (h : Reachable s) : StateInv s := by
  induction h with
  | init s hi => exact init_inv hi
  | create s u i s' t hr heq ih => exact create_preserves_inv ih heq
  | resolve s u tid st s' t hr heq ih => exact update_preserves_inv ih heq

/-! ### Branch characterizations of the error paths -/

theorem createTx_invalid (s : DB) (u : Nat) (i : CreateTxInput)
    (hv : createInputOk i = false) :
    createTransaction s u i = (s, .error ApiError.validationFailed) := by
  unfold createTransaction
  rw [if_pos (by rw [hv]; exact Bool.false_ne_true)]

theorem createTx_notFound (s : DB) (u : Nat) (i : CreateTxInput)
    (hv : createInputOk i = true) (hfb : findBook s i.requestedBookId = none) :
    createTransaction s u i = (s, .error ApiError.bookNotFound) := by
  unfold createTransaction
  rw [if_neg (fun hc => hc hv)]
  simp only [hfb]

theorem createTx_notAvail (s : DB) (u : Nat) (i : CreateTxInput) (bk : Book)
    (hv : createInputOk i = true) (hfb : findBook s i.requestedBookId = some bk)
    (hst : bk.status ≠ "available") :
    createTransaction s u i = (s, .error ApiError.bookNotAvailable) := by
  unfold createTransaction
  rw [if_neg (fun hc => hc hv)]
  simp only [hfb]
  rw [if_pos hst]

theorem createTx_ownerMismatch (s : DB) (u : Nat) (i : CreateTxInput) (bk : Book)
    (hv : createInputOk i = true) (hfb : findBook s i.requestedBookId = some bk)
    (hst : bk.status = "available") (how : bk.ownerId ≠ i.ownerId) :
    createTransaction s u i = (s, .error ApiError.ownerMismatch) := by
  unfold createTransaction
  rw [if_neg (fun hc => hc hv)]
  simp only [hfb]
  rw [if_neg (fun hc => hc hst), if_pos how]

theorem createTx_exchangeErr (s : DB) (u : Nat) (i : CreateTxInput) (bk : Book)
    (e : ApiError)
    (hv : createInputOk i = true) (hfb : findBook s i.requestedBookId = some bk)
    (hst : bk.status = "available") (how : bk.ownerId = i.ownerId)
    (hex : exchangeCheck s u i = some e) :
    createTransaction s u i = (s, .error e) := by
  unfold createTransaction
  rw [if_neg (fun hc => hc hv)]
  simp only [hfb]
  rw [if_neg (fun hc => hc hst), if_neg (fun hc => hc how)]
  simp only [hex]

theorem createTx_ownBook (s : DB) (u : Nat) (i : CreateTxInput) (bk : Book)
    (hv : createInputOk i = true) (hfb : findBook s i.requestedBookId = some bk)
    (hst : bk.status = "available") (how : bk.ownerId = i.ownerId)
    (hex : exchangeCheck s u i = none) (hown : bk.ownerId = u) :
    createTransaction s u i = (s, .error ApiError.ownBook) := by
  unfold createTransaction
  rw [if_neg (fun hc => hc hv)]
  simp only [hfb]
  rw [if_neg (fun hc => hc hst), if_neg (fun hc => hc how)]
  simp only [hex]
  rw [if_pos hown]

theorem createTx_typeMismatch (s : DB) (u : Nat) (i : CreateTxInput) (bk : Book)
    (hv : createInputOk i = true) (hfb : findBook s i.requestedBookId = some bk)
    (hst : bk.status = "available") (how : bk.ownerId = i.ownerId)
    (hex : exchangeCheck s u i = none) (hown : bk.ownerId ≠ u)
    (hty : bk.availabilityType ≠ i.type) :
    createTransaction s u i = (s, .error ApiError.typeMismatch) := by
  unfold createTransaction
  rw [if_neg (fun hc => hc hv)]
  simp only [hfb]
  rw [if_neg (fun hc => hc hst), if_neg (fun hc => hc how)]
  simp only [hex]
  rw [if_neg hown, if_pos hty]

theorem createTx_duplicate (s : DB) (u : Nat) (i : CreateTxInput) (bk : Book)
    (hv : createInputOk i = true) (hfb : findBook s i.requestedBookId = some bk)
    (hst : bk.status = "available") (how : bk.ownerId = i.ownerId)
    (hex : exchangeCheck s u i = none) (hown : bk.ownerId ≠ u)
    (hty : bk.availabilityType = i.type)
    (hdup : hasDuplicatePending s u i.requestedBookId = true) :
    createTransaction s u i = (s, .error ApiError.duplicatePending) := by
  unfold createTransaction
  rw [if_neg (fun hc => hc hv)]
  simp only [hfb]
  rw [if_neg (fun hc => hc hst), if_neg (fun hc => hc how)]
  simp only [hex]
  rw [if_neg hown, if_neg (fun hc => hc hty), if_pos hdup]

theorem updateTx_invalidId (s : DB) (u : Nat) (st : TxStatus) :
    updateTransaction s u 0 st = (s, .error ApiError.invalidId) := by
  unfold updateTransaction
  rw [if_pos rfl]

theorem updateTx_txnNotFound (s : DB) (u tid : Nat) (st : TxStatus)
    (hnz : tid ≠ 0) (hft : findTxn s tid = none) :
    updateTransaction s u tid st = (s, .error ApiError.txnNotFound) := by
  unfold updateTransaction
  rw [if_neg hnz]
  simp only [hft]

theorem updateTx_bookGone (s : DB) (u tid : Nat) (st : TxStatus) (txn : Txn)
    (hnz : tid ≠ 0) (hft : findTxn s tid = some txn)
    (hfb : findBook s txn.requestedBookId = none) :
    updateTransaction s u tid st = (s, .error ApiError.txnNotFound) := by
  unfold updateTransaction
  rw [if_neg hnz]
  simp only [hft, hfb]

theorem updateTx_notOwner (s : DB) (u tid : Nat) (st : TxStatus) (txn : Txn) (bk : Book)
    (hnz : tid ≠ 0) (hft : findTxn s tid = some txn)
    (hfb : findBook s txn.requestedBookId = some bk) (hown : bk.ownerId ≠ u) :
    updateTransaction s u tid st = (s, .error ApiError.notOwner) := by
  unfold updateTransaction
  rw [if_neg hnz]
  simp only [hft, hfb]
  rw [if_pos hown]

theorem updateTx_notPending (s : DB) (u tid : Nat) (st : TxStatus) (txn : Txn) (bk : Book)
    (hnz : tid ≠ 0) (hft : findTxn s tid = some txn)
    (hfb : findBook s txn.requestedBookId = some bk) (hown : bk.ownerId = u)
    (hterm : txn.status ≠ TxStatus.pending) :
    updateTransaction s u tid st = (s, .error ApiError.notPending) := by
  unfold updateTransaction
  rw [if_neg hnz]
  simp only [hft, hfb]
  rw [if_neg (fun hc => hc hown), if_pos hterm]

theorem updateTx_invalidStatus (s : DB) (u tid : Nat) (st : TxStatus) (txn : Txn) (bk : Book)
    (hnz : tid ≠ 0) (hft : findTxn s tid = some txn)
    (hfb : findBook s txn.requestedBookId = some bk) (hown : bk.ownerId = u)
    (hpend : txn.status = TxStatus.pending)
    (hbad : st ≠ TxStatus.approved ∧ st ≠ TxStatus.rejected) :
    updateTransaction s u tid st = (s, .error ApiError.invalidStatusValue) := by
  unfold updateTransaction
  rw [if_neg hnz]
  simp only [hft, hfb]
  rw [if_neg (fun hc => hc hown), if_neg (fun hc => hc hpend), if_pos hbad]

theorem updateTx_approve (s : DB) (u tid : Nat) (txn : Txn) (bk : Book)
    (hnz : tid ≠ 0) (hft : findTxn s tid = some txn)
    (hfb : findBook s txn.requestedBookId = some bk) (hown : bk.ownerId = u)
    (hpend : txn.status = TxStatus.pending) :
    updateTransaction s u tid TxStatus.approved
      = (approvedState s tid txn, .ok { txn with status := TxStatus.approved }) := by
  unfold updateTransaction
  rw [if_neg hnz]
  simp only [hft, hfb]
  rw [if_neg (fun hc => hc hown), if_neg (fun hc => hc hpend),
    if_neg (fun hc => hc.1 rfl)]
  simp

theorem updateTx_reject (s : DB) (u tid : Nat) (txn : Txn) (bk : Book)
    (hnz : tid ≠ 0) (hft : findTxn s tid = some txn)
    (hfb : findBook s txn.requestedBookId = some bk) (hown : bk.ownerId = u)
    (hpend : txn.status = TxStatus.pending) :
    updateTransaction s u tid TxStatus.rejected
      = (rejectedState s tid txn, .ok { txn with status := TxStatus.rejected }) := by
  unfold updateTransaction
  rw [if_neg hnz]
  simp only [hft, hfb]
  rw [if_neg (fun hc => hc hown), if_neg (fun hc => hc hpend),
    if_neg (fun hc => hc.2 rfl)]
  simp

/-! ### Remaining lookup helpers -/

instance {ε α : Type} [DecidableEq ε] [DecidableEq α] : DecidableEq (Except ε α) :=
  fun x y =>
    match x, y with
    | Except.ok a, Except.ok b =>
      if h : a = b then .isTrue (by rw [h]) else .isFalse (fun hc => h (Except.ok.inj hc))
    | Except.error a, Except.error b =>
      if h : a = b then .isTrue (by rw [h])
      else .isFalse (fun hc => h (Except.error.inj hc))
    | Except.ok _, Except.error _ => .isFalse (fun hc => Except.noConfusion hc)
    | Except.error _, Except.ok _ => .isFalse (fun hc => Except.noConfusion hc)

theorem find?_id_of_mem {l : List Txn} {u : Txn}
    (hn : (l.map (fun t => t.id)).Nodup) (hu : u ∈ l) :
    l.find? (fun t => t.id == u.id) = some u := by
  induction l with
  | nil => cases hu
  | cons a rest ih =>
    rw [List.map_cons] at hn
    have hn1 := List.nodup_cons.mp hn
    rcases List.mem_cons.mp hu with rfl | hu'
    · simp [List.find?]
    · have hane : a.id ≠ u.id := by
        intro he
        exact hn1.1 (he ▸ List.mem_map_of_mem _ hu')
      rw [List.find?]
      rw [show (a.id == u.id) = false from beq_eq_false_iff_ne.mpr hane]
      exact ih hn1.2 hu'

theorem findTxn_of_mem {s : DB} {u : Txn}
    (hn : (s.transactions.map (fun t => t.id)).Nodup) (hu : u ∈ s.transactions) :
    findTxn s u.id = some u :=
  find?_id_of_mem hn hu

/-- The sibling snapshot queried by the approve path. -/
def approveSibs (s : DB) (tid : Nat) (txn : Txn) : List Txn :=
  (setTxnStatus s tid TxStatus.approved).transactions.filter
    (fun t => t.requestedBookId == txn.requestedBookId)

theorem approvedState_eq (s : DB) (tid : Nat) (txn : Txn) :
    approvedState s tid txn
      = setBookStatus (cascade tid (setTxnStatus s tid TxStatus.approved)
          (approveSibs s tid txn)) txn.requestedBookId "approved" := rfl

theorem approvedState_findTxn (s : DB) (tid : Nat) (txn : Txn) (x : Nat) :
    findTxn (approvedState s tid txn) x =
      if ∃ ot ∈ approveSibs s tid txn,
          ot.id ≠ tid ∧ ot.status = TxStatus.pending ∧ ot.id = x
      then (findTxn (setTxnStatus s tid TxStatus.approved) x).map
            (fun t => { t with status := TxStatus.rejected })
      else findTxn (setTxnStatus s tid TxStatus.approved) x := by
  rw [approvedState_eq, findTxn_setBookStatus]
  exact cascade_findTxn _ _ _ _

theorem approvedState_findBook (s : DB) (tid : Nat) (txn : Txn) (x : Nat) :
    findBook (approvedState s tid txn) x =
      (if ∃ ot ∈ approveSibs s tid txn,
          ot.id ≠ tid ∧ ot.status = TxStatus.pending ∧ ot.offeredBookId = some x
      then (findBook s x).map (fun b => { b with status := "available" })
      else findBook s x).map (updBook txn.requestedBookId "approved") := by
  rw [approvedState_eq, findBook_setBookStatus]
  congr 1
  rw [cascade_findBook]
  rfl

theorem exchangeCheck_same_some {s : DB} {u : Nat} {i : CreateTxInput} {bk : Book}
    (hty : i.type = BType.Exchange)
    (hsame : i.offeredBookId = some i.requestedBookId)
    (hfb : findBook s i.requestedBookId = some bk) :
    ∃ e, exchangeCheck s u i = some e := by
  unfold exchangeCheck
  rw [if_pos hty]
  simp only [hsame, hfb]
  by_cases h1 : bk.ownerId ≠ u
  · exact ⟨_, by rw [if_pos h1]⟩
  · by_cases h2 : bk.status ≠ "available"
    · exact ⟨_, by rw [if_neg h1, if_pos h2]⟩
    · refine ⟨ApiError.sameBook, ?_⟩
      rw [if_neg h1, if_neg h2]
      simp

/-! ### Concrete example states used in the claim theorems -/

/-- An Exchange-mode book owned by user 1. -/
def exBook1 : Book :=
  { id := 1, title := "tt", author := "aa", genre := "gg", ageGroup := "kk",
    coverImage := "cc", availabilityType := .Exchange, status := "available", ownerId := 1 }

/-- An Exchange-mode book owned by user 2. -/
def exBook2 : Book :=
  { id := 2, title := "tt", author := "aa", genre := "gg", ageGroup := "kk",
    coverImage := "cc", availabilityType := .Exchange, status := "available", ownerId := 2 }

/-- Initial state: both books available, no transactions. -/
def exDB0 : DB := { books := [exBook1, exBook2], transactions := [] }

/-- User 2 requests book 1 from user 1 in exchange for their book 2. -/
def exInput : CreateTxInput :=
  { requestedBookId := 1, ownerId := 1, type := .Exchange, offeredBookId := some 2 }

/-- The transaction row created for exInput. -/
def exTxn1 : Txn :=
  { id := 1, requesterId := 2, requestedBookId := 1, ownerId := 1, type := .Exchange,
    offeredBookId := some 2, status := .pending }

/-- State after the create call: both books pending, one pending transaction. -/
def exDB1 : DB :=
  { books := [{ exBook1 with status := "pending" }, { exBook2 with status := "pending" }],
    transactions := [exTxn1] }

/-- State after owner 1 approves: book 1 approved, book 2 left pending forever. -/
def exDB2 : DB :=
  { books := [{ exBook1 with status := "approved" }, { exBook2 with status := "pending" }],
    transactions := [{ exTxn1 with status := .approved }] }

theorem exDB0_init : InitState exDB0 := by
  unfold InitState
  refine ⟨rfl, by decide, by decide⟩

theorem exCreate_step : createTransaction exDB0 2 exInput = (exDB1, .ok exTxn1) := by
  decide

theorem exApprove_step :
    updateTransaction exDB1 1 1 TxStatus.approved
      = (exDB2, .ok { exTxn1 with status := .approved }) := by
  decide

theorem exDB2_reachable : Reachable exDB2 :=
  Reachable.resolve exDB1 1 1 TxStatus.approved exDB2 _
    (Reachable.create exDB0 2 exInput exDB1 exTxn1
      (Reachable.init exDB0 exDB0_init) exCreate_step)
    exApprove_step

/-! ### Claim theorems -/

/-- Claim C1, counterexample: in the reachable state exDB2 (create an Exchange request,
then approve it), book 2 has status pending although no pending Request references it
as requested or offered item — the claimed iff invariant is false on the code. -/
theorem C1_counterexample :
    Reachable exDB2 ∧
    findBook exDB2 2 = some { exBook2 with status := "pending" } ∧
    (∀ t ∈ exDB2.transactions,
      ¬(t.status = TxStatus.pending ∧
        (t.requestedBookId = 2 ∨ t.offeredBookId = some 2))) :=
  ⟨exDB2_reachable, by decide, by decide⟩

/-- Claim C1, amended: in every reachable state, an item has status pending iff a
pending Request references it as requested or offered item, or it is the offered
item of an approved Request (the approve path never releases the offered item of
the approved request, so it stays pending). -/
theorem C1_amended_pending_iff {s : DB} (h : Reachable s) :
    ∀ b ∈ s.books, b.status = "pending" ↔
      ((∃ t ∈ s.transactions, t.status = TxStatus.pending ∧
        (t.requestedBookId = b.id ∨ t.offeredBookId = some b.id)) ∨
       (∃ t ∈ s.transactions, t.status = TxStatus.approved ∧
        t.offeredBookId = some b.id)) := by
  intro b hb
  have inv := reachable_inv h
  have hiff := inv.pendIff b hb
  have e1 : (0 < pendCnt s b.id) ↔ ∃ t ∈ s.transactions, t.status = TxStatus.pending ∧
      (t.requestedBookId = b.id ∨ t.offeredBookId = some b.id) := by
    unfold pendCnt
    rw [List.countP_pos_iff]
    constructor
    · rintro ⟨t, ht, hp⟩
      exact ⟨t, ht, of_decide_eq_true hp⟩
    · rintro ⟨t, ht, hp⟩
      exact ⟨t, ht, decide_eq_true hp⟩
  have e2 : (0 < apprOffCnt s b.id) ↔ ∃ t ∈ s.transactions,
      t.status = TxStatus.approved ∧ t.offeredBookId = some b.id := by
    unfold apprOffCnt
    rw [List.countP_pos_iff]
    constructor
    · rintro ⟨t, ht, hp⟩
      exact ⟨t, ht, of_decide_eq_true hp⟩
    · rintro ⟨t, ht, hp⟩
      exact ⟨t, ht, decide_eq_true hp⟩
  rw [hiff]
  constructor
  · intro hpos
    by_cases h1 : 0 < pendCnt s b.id
    · exact Or.inl (e1.mp h1)
    · exact Or.inr (e2.mp (by omega))
  · rintro (hx | hx)
    · have := e1.mpr hx
      omega
    · have := e2.mpr hx
      omega

/-- Witness for the amended C1: the iff instantiated at the reachable state exDB2
and the stuck offered book 2. -/
theorem C1_amended_witness :
    Reachable exDB2 ∧
    (({ exBook2 with status := "pending" } : Book).status = "pending" ↔
      ((∃ t ∈ exDB2.transactions, t.status = TxStatus.pending ∧
        (t.requestedBookId = ({ exBook2 with status := "pending" } : Book).id ∨
          t.offeredBookId = some ({ exBook2 with status := "pending" } : Book).id)) ∨
       (∃ t ∈ exDB2.transactions, t.status = TxStatus.approved ∧
        t.offeredBookId = some ({ exBook2 with status := "pending" } : Book).id))) := by
  have hreach := exDB2_reachable
  exact ⟨hreach, C1_amended_pending_iff hreach _ (by decide)⟩

/-- Claim C5: in every reachable state, at most one Request with a given requested
item is approved: two approved Requests for the same item are the same row. -/
theorem C5_at_most_one_approved {s : DB} (h : Reachable s) :
    (∀ b ∈ s.books, apprReqCnt s b.id ≤ 1) ∧
    (∀ t1 ∈ s.transactions, ∀ t2 ∈ s.transactions,
      t1.status = TxStatus.approved → t2.status = TxStatus.approved →
      t1.requestedBookId = t2.requestedBookId → t1 = t2) := by
  have inv := reachable_inv h
  refine ⟨inv.apprReqLe, ?_⟩
  intro t1 h1 t2 h2 ha1 ha2 hreq
  by_contra hne
  obtain ⟨b, hb, hbid⟩ := inv.reqExists t1 h1
  have h2le := inv.apprReqLe b hb
  rw [hbid] at h2le
  have h2ge := two_le_countP (isApprReq t1.requestedBookId) s.transactions t1 t2 h1 h2
    hne (decide_eq_true ⟨ha1, rfl⟩) (decide_eq_true ⟨ha2, hreq.symm⟩)
  unfold apprReqCnt at h2le
  omega

/-- Witness for C5 at the reachable state exDB2 and book 1. -/
theorem C5_witness : Reachable exDB2 ∧ apprReqCnt exDB2 1 ≤ 1 := by
  have hreach := exDB2_reachable
  refine ⟨hreach, ?_⟩
  have hres := (C5_at_most_one_approved hreach).1 { exBook1 with status := "approved" }
    (by decide)
  exact hres

/-- Claim C2: approving a pending Request T for item I (by the authorized resolver)
sets T approved, sets I approved, sets every other pending Request for I to rejected
releasing its offered item to available, and leaves already-terminal Requests for I
unchanged. Stated over any state with unique transaction ids in which no request for
I offers I itself. -/
theorem C2_approve_effect {s : DB} {tid actor : Nat} {t : Txn} {bk : Book}
    (hnz : tid ≠ 0)
    (hft : findTxn s tid = some t)
    (hpend : t.status = TxStatus.pending)
    (hfb : findBook s t.requestedBookId = some bk)
    (hauth : bk.ownerId = actor)
    (hnodup : (s.transactions.map (fun x => x.id)).Nodup)
    (hoffne : ∀ u ∈ s.transactions, u.requestedBookId = t.requestedBookId →
      u.offeredBookId ≠ some t.requestedBookId) :
    (updateTransaction s actor tid TxStatus.approved).2
        = .ok { t with status := TxStatus.approved } ∧
    findBook (updateTransaction s actor tid TxStatus.approved).1 t.requestedBookId
        = some { bk with status := "approved" } ∧
    (∀ u ∈ s.transactions, u.id ≠ tid → u.requestedBookId = t.requestedBookId →
      u.status = TxStatus.pending →
        findTxn (updateTransaction s actor tid TxStatus.approved).1 u.id
          = some { u with status := TxStatus.rejected } ∧
        (∀ ob b0, u.offeredBookId = some ob → findBook s ob = some b0 →
          findBook (updateTransaction s actor tid TxStatus.approved).1 ob
            = some { b0 with status := "available" })) ∧
    (∀ u ∈ s.transactions, u.requestedBookId = t.requestedBookId →
      (u.status = TxStatus.approved ∨ u.status = TxStatus.rejected) →
        findTxn (updateTransaction s actor tid TxStatus.approved).1 u.id = some u) := by
  have htid := findTxn_some_id hft
  have htmem := findTxn_some_mem hft
  have hbid := findBook_some_id hfb
  have heq := updateTx_approve s actor tid t bk hnz hft hfb hauth hpend
  have hsib_src : ∀ ot ∈ approveSibs s tid t, ∃ t1 ∈ s.transactions,
      ot = updTxn tid TxStatus.approved t1 ∧ t1.requestedBookId = t.requestedBookId := by
    intro ot hot
    obtain ⟨hotmem, hotreq⟩ := List.mem_filter.mp hot
    rw [setTxnStatus_transactions] at hotmem
    obtain ⟨t1, ht1, rfl⟩ := List.mem_map.mp hotmem
    refine ⟨t1, ht1, rfl, ?_⟩
    have := updTxn_requestedBookId tid TxStatus.approved t1
    rw [this] at hotreq
    simpa using hotreq
  refine ⟨by rw [heq], ?_, ?_, ?_⟩
  · rw [heq]
    show findBook (approvedState s tid t) t.requestedBookId = _
    rw [approvedState_findBook]
    rw [if_neg ?hc]
    case hc =>
      rintro ⟨ot, hot, hne, hps, hoff⟩
      obtain ⟨t1, ht1, rfl, hreq1⟩ := hsib_src ot hot
      rw [updTxn_offeredBookId] at hoff
      exact hoffne t1 ht1 hreq1 hoff
    rw [hfb]
    simp only [Option.map_some']
    unfold updBook
    rw [if_pos hbid]
  · intro u hu hune hreq hupend
    have humem1 : updTxn tid TxStatus.approved u = u := updTxn_of_ne _ _ _ hune
    have husib : u ∈ approveSibs s tid t := by
      unfold approveSibs
      rw [setTxnStatus_transactions]
      refine List.mem_filter.mpr ⟨?_, ?_⟩
      · exact List.mem_map.mpr ⟨u, hu, humem1⟩
      · simp [hreq]
    constructor
    · rw [heq]
      show findTxn (approvedState s tid t) u.id = _
      rw [approvedState_findTxn, if_pos ⟨u, husib, hune, hupend, rfl⟩,
        findTxn_setTxnStatus, findTxn_of_mem hnodup hu]
      simp only [Option.map_some']
      rw [humem1]
    · intro ob b0 hob hb0
      have hobne : ob ≠ t.requestedBookId := by
        intro hx
        exact hoffne u hu hreq (by rw [hob, hx])
      rw [heq]
      show findBook (approvedState s tid t) ob = _
      rw [approvedState_findBook, if_pos ⟨u, husib, hune, hupend, by rw [hob]⟩, hb0]
      simp only [Option.map_some']
      rw [updBook_of_ne _ _ _ (by rw [findBook_some_id hb0]; exact hobne)]
  · intro u hu hreq hterm
    have huterm : u.status ≠ TxStatus.pending := by
      rcases hterm with hx | hx <;> rw [hx] <;> simp
    have hune : u.id ≠ tid := by
      intro hx
      have : u = t := nodup_ids_unique hnodup hu htmem (by rw [hx, htid])
      rw [this] at huterm
      exact huterm hpend
    rw [heq]
    show findTxn (approvedState s tid t) u.id = _
    rw [approvedState_findTxn, if_neg ?hc2, findTxn_setTxnStatus,
      findTxn_of_mem hnodup hu]
    case hc2 =>
      rintro ⟨ot, hot, hne, hps, hid⟩
      obtain ⟨t1, ht1, rfl, hreq1⟩ := hsib_src ot hot
      rw [updTxn_id] at hid
      have ht1u : t1 = u := nodup_ids_unique hnodup ht1 hu hid
      subst ht1u
      rw [updTxn_of_ne _ _ _ (by rw [hid]; exact hune)] at hps
      exact huterm hps
    · simp only [Option.map_some']
      rw [updTxn_of_ne _ _ _ hune]

/-- A Free-mode book owned by user 1, pending: requested by two competing requests. -/
def wBook1 : Book :=
  { id := 1, title := "tt", author := "aa", genre := "gg", ageGroup := "kk",
    coverImage := "cc", availabilityType := .Free, status := "pending", ownerId := 1 }

/-- An Exchange-mode book owned by user 3, pending as the offered item of wTxn2. -/
def wBook2 : Book :=
  { id := 2, title := "tt", author := "aa", genre := "gg", ageGroup := "kk",
    coverImage := "cc", availabilityType := .Exchange, status := "pending", ownerId := 3 }

/-- Pending Free request by user 2 for book 1. -/
def wTxn1 : Txn :=
  { id := 1, requesterId := 2, requestedBookId := 1, ownerId := 1, type := .Free,
    offeredBookId := none, status := .pending }

/-- Competing pending Exchange request by user 3 for book 1, offering book 2. -/
def wTxn2 : Txn :=
  { id := 2, requesterId := 3, requestedBookId := 1, ownerId := 1, type := .Exchange,
    offeredBookId := some 2, status := .pending }

/-- A state with two competing pending requests for book 1. -/
def wDB : DB := { books := [wBook1, wBook2], transactions := [wTxn1, wTxn2] }

/-- Witness for C2 at the two-sibling state wDB: approving wTxn1 rejects wTxn2 and
releases its offered book 2. -/
theorem C2_witness :
    findTxn wDB 1 = some wTxn1 ∧ wTxn1.status = TxStatus.pending ∧
    (updateTransaction wDB 1 1 TxStatus.approved).2
      = .ok { wTxn1 with status := TxStatus.approved } ∧
    findTxn (updateTransaction wDB 1 1 TxStatus.approved).1 2
      = some { wTxn2 with status := TxStatus.rejected } ∧
    findBook (updateTransaction wDB 1 1 TxStatus.approved).1 2
      = some { wBook2 with status := "available" } := by
  have hres := @C2_approve_effect wDB 1 1 wTxn1 wBook1
    (by decide) (by decide) (by decide) (by decide) (by decide) (by decide)
    (by decide)
  obtain ⟨h1, h2, h3, h4⟩ := hres
  have hsib := h3 wTxn2 (by decide) (by decide) (by decide) (by decide)
  exact ⟨by decide, by decide, h1, hsib.1, hsib.2 2 wBook2 (by decide) (by decide)⟩

/-- Claim C6: rejecting a pending Request (by the authorized resolver) sets it
rejected, sets the requested item back to available, and sets its offered item
(when present) back to available. -/
theorem C6_reject_effect {s : DB} {tid actor : Nat} {t : Txn} {bk : Book}
    (hnz : tid ≠ 0)
    (hft : findTxn s tid = some t)
    (hpend : t.status = TxStatus.pending)
    (hfb : findBook s t.requestedBookId = some bk)
    (hauth : bk.ownerId = actor) :
    (updateTransaction s actor tid TxStatus.rejected).2
        = .ok { t with status := TxStatus.rejected } ∧
    findBook (updateTransaction s actor tid TxStatus.rejected).1 t.requestedBookId
        = some { bk with status := "available" } ∧
    (∀ ob b0, t.offeredBookId = some ob → findBook s ob = some b0 →
      findBook (updateTransaction s actor tid TxStatus.rejected).1 ob
        = some { b0 with status := "available" }) := by
  have hbid := findBook_some_id hfb
  have heq := updateTx_reject s actor tid t bk hnz hft hfb hauth hpend
  refine ⟨by rw [heq], ?_, ?_⟩
  · rw [heq]
    show findBook (rejectedState s tid t) t.requestedBookId = _
    unfold rejectedState
    cases hoff : t.offeredBookId with
    | none =>
      rw [findBook_setBookStatus, findBook_setTxnStatus, hfb]
      simp only [Option.map_some']
      unfold updBook
      rw [if_pos hbid]
    | some ob =>
      rw [findBook_setBookStatus, findBook_setBookStatus, findBook_setTxnStatus, hfb]
      simp only [Option.map_some']
      by_cases hbo : bk.id = ob
      · rw [show updBook ob "available" bk = { bk with status := "available" } from by
          unfold updBook; rw [if_pos hbo]]
        show some (updBook t.requestedBookId "available"
          ({ bk with status := "available" } : Book)) = _
        unfold updBook
        split <;> rfl
      · rw [updBook_of_ne _ _ _ hbo]
        unfold updBook
        rw [if_pos hbid]
  · intro ob b0 hob hb0
    have hb0id := findBook_some_id hb0
    rw [heq]
    show findBook (rejectedState s tid t) ob = _
    unfold rejectedState
    rw [hob, findBook_setBookStatus, findBook_setBookStatus, findBook_setTxnStatus, hb0]
    simp only [Option.map_some']
    rw [show updBook ob "available" b0 = { b0 with status := "available" } from by
      unfold updBook; rw [if_pos hb0id]]
    by_cases hbr : b0.id = t.requestedBookId
    · rw [show updBook t.requestedBookId "available"
          ({ b0 with status := "available" } : Book)
          = { b0 with status := "available" } from by
        unfold updBook
        split <;> rfl]
    · rw [updBook_of_ne t.requestedBookId "available"
        ({ b0 with status := "available" } : Book) hbr]

/-- Witness for C6: rejecting the pending Exchange request in exDB1 releases both
book 1 and the offered book 2 to available. -/
theorem C6_witness :
    findTxn exDB1 1 = some exTxn1 ∧ exTxn1.status = TxStatus.pending ∧
    (updateTransaction exDB1 1 1 TxStatus.rejected).2
      = .ok { exTxn1 with status := TxStatus.rejected } ∧
    findBook (updateTransaction exDB1 1 1 TxStatus.rejected).1 1
      = some { exBook1 with status := "available" } ∧
    findBook (updateTransaction exDB1 1 1 TxStatus.rejected).1 2
      = some { exBook2 with status := "available" } := by
  have hres := @C6_reject_effect exDB1 1 1 exTxn1 ({ exBook1 with status := "pending" })
    (by decide) (by decide) (by decide) (by decide) (by decide)
  obtain ⟨h1, h2, h3⟩ := hres
  refine ⟨by decide, by decide, h1, ?_, ?_⟩
  · have := h2
    simpa using this
  · have := h3 2 ({ exBook2 with status := "pending" }) (by decide) (by decide)
    simpa using this

/-- Claim C3, amended: resolveRequest fails with Forbidden if and only if the actor
differs from the CURRENT ownerId of the requested book (the joined book row), not the
ownerId stored on the Request. -/
theorem C3_amended_forbidden_iff {s : DB} {tid actor : Nat} {st : TxStatus} {t : Txn}
    {bk : Book} (hnz : tid ≠ 0) (hft : findTxn s tid = some t)
    (hfb : findBook s t.requestedBookId = some bk) :
    ((updateTransaction s actor tid st).2 = .error ApiError.notOwner
      ↔ bk.ownerId ≠ actor) := by
  constructor
  · intro he
    by_contra hc0
    have hc : bk.ownerId = actor := hc0
    by_cases hpend : t.status = TxStatus.pending
    · by_cases happ : st = TxStatus.approved
      · subst happ
        rw [updateTx_approve s actor tid t bk hnz hft hfb hc hpend] at he
        simp at he
      · by_cases hrej : st = TxStatus.rejected
        · subst hrej
          rw [updateTx_reject s actor tid t bk hnz hft hfb hc hpend] at he
          simp at he
        · rw [updateTx_invalidStatus s actor tid st t bk hnz hft hfb hc hpend
            ⟨happ, hrej⟩] at he
          simp at he
    · rw [updateTx_notPending s actor tid st t bk hnz hft hfb hc hpend] at he
      simp at he
  · intro hc
    rw [updateTx_notOwner s actor tid st t bk hnz hft hfb hc]

/-- The PATCH /books/:id body changing only the owner of book 1 to user 5. -/
def exOwnerChange : BookUpdateInput :=
  { title := none, author := none, genre := none, ageGroup := none, coverImage := none,
    availabilityType := none, ownerId := some 5 }

/-- Book 1 after the pending request and the owner change. -/
def exBook1o : Book := { exBook1 with status := "pending", ownerId := 5 }

/-- State after create (exDB1) followed by updateBook changing book 1 ownership. -/
def exDB1o : DB :=
  { books := [exBook1o, { exBook2 with status := "pending" }],
    transactions := [exTxn1] }

/-- Claim C3, counterexample: after the request is created, updateBook changes the
book owner to user 5; the stored Request ownerId is still 1, yet the resolve call by
actor 1 fails with Forbidden — authorization follows the book row, not the Request. -/
theorem C3_counterexample :
    createTransaction exDB0 2 exInput = (exDB1, .ok exTxn1) ∧
    updateBook exDB1 1 1 exOwnerChange = (exDB1o, .ok exBook1o) ∧
    (findTxn exDB1o 1).map Txn.ownerId = some 1 ∧
    updateTransaction exDB1o 1 1 TxStatus.approved = (exDB1o, .error ApiError.notOwner) ∧
    errClass ApiError.notOwner = ErrClass.forbidden :=
  ⟨exCreate_step, by decide, by decide, by decide, rfl⟩

/-- Witness for the amended C3 at the diverged state exDB1o. -/
theorem C3_witness :
    findTxn exDB1o 1 = some exTxn1 ∧
    ((updateTransaction exDB1o 1 1 TxStatus.approved).2 = .error ApiError.notOwner
      ↔ exBook1o.ownerId ≠ 1) :=
  ⟨by decide, @C3_amended_forbidden_iff exDB1o 1 1 TxStatus.approved exTxn1 exBook1o
    (by decide) (by decide) (by decide)⟩

/-- Claim C4, amended: createTransaction evaluates its semantic checks fail-fast in
the order a (exists), b (available), c (owner matches), f (Exchange offered-item
block), d (not own book), e (mode matches), g (no duplicate): the Exchange block runs
BEFORE the own-book and mode checks, so a requester who owns the requested item
receives the cannot-request-own-item error only when the Exchange block passes
(or the mode is Free). -/
theorem C4_amended_check_order :
    (∀ s u i, createInputOk i = false →
      createTransaction s u i = (s, .error ApiError.validationFailed)) ∧
    (∀ s u i, createInputOk i = true → findBook s i.requestedBookId = none →
      createTransaction s u i = (s, .error ApiError.bookNotFound)) ∧
    (∀ s u i bk, createInputOk i = true → findBook s i.requestedBookId = some bk →
      bk.status ≠ "available" →
      createTransaction s u i = (s, .error ApiError.bookNotAvailable)) ∧
    (∀ s u i bk, createInputOk i = true → findBook s i.requestedBookId = some bk →
      bk.status = "available" → bk.ownerId ≠ i.ownerId →
      createTransaction s u i = (s, .error ApiError.ownerMismatch)) ∧
    (∀ s u i bk e, createInputOk i = true → findBook s i.requestedBookId = some bk →
      bk.status = "available" → bk.ownerId = i.ownerId → exchangeCheck s u i = some e →
      createTransaction s u i = (s, .error e)) ∧
    (∀ s u i bk ob obk, createInputOk i = true → findBook s i.requestedBookId = some bk →
      bk.status = "available" → bk.ownerId = i.ownerId → bk.ownerId = u →
      i.type = BType.Exchange → i.offeredBookId = some ob → findBook s ob = some obk →
      obk.ownerId ≠ u →
      createTransaction s u i = (s, .error ApiError.offeredNotOwned)) ∧
    (∀ s u i bk, createInputOk i = true → findBook s i.requestedBookId = some bk →
      bk.status = "available" → bk.ownerId = i.ownerId → exchangeCheck s u i = none →
      bk.ownerId = u →
      createTransaction s u i = (s, .error ApiError.ownBook)) ∧
    (∀ s u i bk, createInputOk i = true → findBook s i.requestedBookId = some bk →
      bk.status = "available" → bk.ownerId = i.ownerId → exchangeCheck s u i = none →
      bk.ownerId ≠ u → bk.availabilityType ≠ i.type →
      createTransaction s u i = (s, .error ApiError.typeMismatch)) ∧
    (∀ s u i bk, createInputOk i = true → findBook s i.requestedBookId = some bk →
      bk.status = "available" → bk.ownerId = i.ownerId → exchangeCheck s u i = none →
      bk.ownerId ≠ u → bk.availabilityType = i.type →
      hasDuplicatePending s u i.requestedBookId = true →
      createTransaction s u i = (s, .error ApiError.duplicatePending)) := by
  refine ⟨?_, ?_, ?_, ?_, ?_, ?_, ?_, ?_, ?_⟩
  · intro s u i hv
    exact createTx_invalid s u i hv
  · intro s u i hv hfb
    exact createTx_notFound s u i hv hfb
  · intro s u i bk hv hfb hst
    exact createTx_notAvail s u i bk hv hfb hst
  · intro s u i bk hv hfb hst how
    exact createTx_ownerMismatch s u i bk hv hfb hst how
  · intro s u i bk e hv hfb hst how hex
    exact createTx_exchangeErr s u i bk e hv hfb hst how hex
  · intro s u i bk ob obk hv hfb hst how hown hty hob hfbo hone
    have hex : exchangeCheck s u i = some ApiError.offeredNotOwned := by
      unfold exchangeCheck
      rw [if_pos hty]
      simp only [hob, hfbo]
      rw [if_pos hone]
    exact createTx_exchangeErr s u i bk ApiError.offeredNotOwned hv hfb hst how hex
  · intro s u i bk hv hfb hst how hex hown
    exact createTx_ownBook s u i bk hv hfb hst how hex hown
  · intro s u i bk hv hfb hst how hex hown hty
    exact createTx_typeMismatch s u i bk hv hfb hst how hex hown hty
  · intro s u i bk hv hfb hst how hex hown hty hdup
    exact createTx_duplicate s u i bk hv hfb hst how hex hown hty hdup

/-- An Exchange-mode book owned by user 7, available. -/
def c4Book2 : Book :=
  { id := 2, title := "tt", author := "aa", genre := "gg", ageGroup := "kk",
    coverImage := "cc", availabilityType := .Exchange, status := "available", ownerId := 7 }

/-- State for the C4 counterexample: user 1 owns available book 1; book 2 belongs
to user 7. -/
def c4DB : DB := { books := [exBook1, c4Book2], transactions := [] }

/-- Claim C4, counterexample: user 1, who owns requested book 1, sends an Exchange
request offering book 2 (owned by user 7). The claimed order would report the
cannot-request-own-item error; the code reports the Exchange-block ownership error
instead, because the Exchange block runs before the own-book check. -/
theorem C4_counterexample :
    (findBook c4DB 1).map Book.ownerId = some 1 ∧
    createTransaction c4DB 1 exInput = (c4DB, .error ApiError.offeredNotOwned) ∧
    ApiError.offeredNotOwned ≠ ApiError.ownBook ∧
    errClass ApiError.offeredNotOwned = ErrClass.forbidden :=
  ⟨by decide, by decide, by decide, rfl⟩

/-- Witness for the amended C4: the Exchange-ownership conjunct applied at the
concrete counterexample state. -/
theorem C4_witness :
    createInputOk exInput = true ∧
    createTransaction c4DB 1 exInput = (c4DB, .error ApiError.offeredNotOwned) := by
  refine ⟨by decide, ?_⟩
  exact C4_amended_check_order.2.2.2.2.2.1 c4DB 1 exInput exBook1 2 c4Book2
    (by decide) (by decide) (by decide) (by decide) (by decide) (by decide)
    (by decide) (by decide) (by decide)

/-- Claim C7, amended: resolving a terminal (approved or rejected) Request always
fails and leaves the state unchanged; the error is Conflict when the caller is the
owner of the requested book (Forbidden or NotFound errors can fire first otherwise); and
no operation ever changes the status of a Request that has left pending. -/
theorem C7_amended_terminal :
    (∀ s u tid st t, findTxn s tid = some t →
      (t.status = TxStatus.approved ∨ t.status = TxStatus.rejected) →
      ((updateTransaction s u tid st).1 = s ∧
        ∃ e, (updateTransaction s u tid st).2 = .error e)) ∧
    (∀ s u tid st t bk, tid ≠ 0 → findTxn s tid = some t →
      findBook s t.requestedBookId = some bk → bk.ownerId = u →
      (t.status = TxStatus.approved ∨ t.status = TxStatus.rejected) →
      updateTransaction s u tid st = (s, .error ApiError.notPending) ∧
      errClass ApiError.notPending = ErrClass.conflict) ∧
    (∀ s u i t0, t0 ∈ s.transactions →
      t0 ∈ ((createTransaction s u i).1).transactions) ∧
    (∀ s u tid st t0, (s.transactions.map (fun x => x.id)).Nodup →
      t0 ∈ s.transactions → t0.status ≠ TxStatus.pending →
      findTxn ((updateTransaction s u tid st).1) t0.id = some t0) := by
  refine ⟨?_, ?_, ?_, ?_⟩
  · intro s u tid st t hft hterm0
    have hterm : t.status ≠ TxStatus.pending := by
      rcases hterm0 with hx | hx <;> rw [hx] <;> simp
    by_cases hz : tid = 0
    · subst hz
      rw [updateTx_invalidId s u st]
      exact ⟨rfl, _, rfl⟩
    · cases hfb : findBook s t.requestedBookId with
      | none =>
        rw [updateTx_bookGone s u tid st t hz hft hfb]
        exact ⟨rfl, _, rfl⟩
      | some bk =>
        by_cases hbo : bk.ownerId = u
        · rw [updateTx_notPending s u tid st t bk hz hft hfb hbo hterm]
          exact ⟨rfl, _, rfl⟩
        · rw [updateTx_notOwner s u tid st t bk hz hft hfb hbo]
          exact ⟨rfl, _, rfl⟩
  · intro s u tid st t bk hnz hft hfb hbo hterm0
    have hterm : t.status ≠ TxStatus.pending := by
      rcases hterm0 with hx | hx <;> rw [hx] <;> simp
    exact ⟨updateTx_notPending s u tid st t bk hnz hft hfb hbo hterm, rfl⟩
  · intro s u i t0 ht0
    cases hres : (createTransaction s u i).2 with
    | error e =>
      rw [createTransaction_error_state hres]
      exact ht0
    | ok t =>
      have heq : createTransaction s u i = ((createTransaction s u i).1, .ok t) := by
        rw [← hres]
      obtain ⟨_, _, _, _, _, hs'⟩ := createTransaction_ok heq
      rw [hs', createdState_transactions]
      exact List.mem_append_left _ ht0
  · intro s u tid st t0 hn ht0 hterm
    cases hres : (updateTransaction s u tid st).2 with
    | error e =>
      rw [updateTransaction_error_state hres]
      exact findTxn_of_mem hn ht0
    | ok t' =>
      have heq : updateTransaction s u tid st = ((updateTransaction s u tid st).1, .ok t') := by
        rw [← hres]
      obtain ⟨hnz, txn, bk, hft, hfb, hbo, hpend, ht', hcase⟩ := updateTransaction_ok heq
      have htne : t0.id ≠ tid := by
        intro hx
        have ht0txn : t0 = txn := nodup_ids_unique hn ht0 (findTxn_some_mem hft)
          (by rw [hx, findTxn_some_id hft])
        rw [ht0txn] at hterm
        exact hterm hpend
      rcases hcase with ⟨hst, hs'⟩ | ⟨hst, hs'⟩
      · rw [hs']
        rw [approvedState_findTxn, if_neg ?hc3, findTxn_setTxnStatus,
          findTxn_of_mem hn ht0]
        case hc3 =>
          rintro ⟨ot, hot, hne, hps, hid⟩
          obtain ⟨hotmem, _⟩ := List.mem_filter.mp hot
          rw [setTxnStatus_transactions] at hotmem
          obtain ⟨t1, ht1, rfl⟩ := List.mem_map.mp hotmem
          rw [updTxn_id] at hid
          have ht1t0 : t1 = t0 := nodup_ids_unique hn ht1 ht0 hid
          subst ht1t0
          rw [updTxn_of_ne _ _ _ (by rw [hid]; exact htne)] at hps
          exact hterm hps
        · simp only [Option.map_some']
          rw [updTxn_of_ne _ _ _ htne]
      · rw [hs']
        have hfr : findTxn (rejectedState s tid txn) t0.id
            = (findTxn s t0.id).map (updTxn tid TxStatus.rejected) := by
          unfold findTxn
          rw [rejectedState_transactions]
          exact find?_map_eq _ _ _ (fun a => by rw [updTxn_id])
        rw [hfr, findTxn_of_mem hn ht0]
        simp only [Option.map_some']
        rw [updTxn_of_ne _ _ _ htne]

/-- A Free-mode book owned by user 1, already approved. -/
def cBook : Book :=
  { id := 1, title := "tt", author := "aa", genre := "gg", ageGroup := "kk",
    coverImage := "cc", availabilityType := .Free, status := "approved", ownerId := 1 }

/-- The approved (terminal) request for cBook. -/
def cTxn : Txn :=
  { id := 1, requesterId := 2, requestedBookId := 1, ownerId := 1, type := .Free,
    offeredBookId := none, status := .approved }

/-- A state holding one terminal request. -/
def cDB : DB := { books := [cBook], transactions := [cTxn] }

/-- Claim C7, counterexample: a resolve call on a terminal Request by a non-owner
(user 9) fails with Forbidden, not Conflict — the owner check runs before the
pending check, so not every call on a terminal Request yields a Conflict error. -/
theorem C7_counterexample :
    (findTxn cDB 1).map Txn.status = some TxStatus.approved ∧
    updateTransaction cDB 9 1 TxStatus.approved = (cDB, .error ApiError.notOwner) ∧
    errClass ApiError.notOwner ≠ ErrClass.conflict :=
  ⟨by decide, by decide, by decide⟩

/-- Witness for the amended C7: the owner resolving the terminal request in cDB
receives the Conflict error and the state is unchanged. -/
theorem C7_witness :
    findTxn cDB 1 = some cTxn ∧
    updateTransaction cDB 1 1 TxStatus.approved = (cDB, .error ApiError.notPending) := by
  refine ⟨by decide, ?_⟩
  exact (C7_amended_terminal.2.1 cDB 1 1 TxStatus.approved cTxn cBook
    (by decide) (by decide) (by decide) (by decide) (Or.inl (by decide))).1

/-- Claim C8: when the requester already holds a pending Request for the item, a
further createRequest by the same requester for that item fails with a
Conflict-class error and changes nothing: either the book is no longer available
(Conflict: not requestable) or, when every other check passes, the duplicate check
itself fires (Conflict: duplicate request). -/
theorem C8_duplicate_conflict {s : DB} {u : Nat} {i : CreateTxInput} {bk : Book}
    (hv : createInputOk i = true)
    (hfb : findBook s i.requestedBookId = some bk)
    (hdup : hasDuplicatePending s u i.requestedBookId = true)
    (hrest : bk.status = "available" → bk.ownerId = i.ownerId ∧
      exchangeCheck s u i = none ∧ bk.ownerId ≠ u ∧ bk.availabilityType = i.type) :
    (createTransaction s u i).1 = s ∧
    ∃ e, (createTransaction s u i).2 = .error e ∧ errClass e = ErrClass.conflict := by
  by_cases hav : bk.status = "available"
  · obtain ⟨h1, h2, h3, h4⟩ := hrest hav
    rw [createTx_duplicate s u i bk hv hfb hav h1 h2 h3 h4 hdup]
    exact ⟨rfl, _, rfl, rfl⟩
  · rw [createTx_notAvail s u i bk hv hfb hav]
    exact ⟨rfl, _, rfl, rfl⟩

/-- A Free-mode pending book owned by user 1. -/
def dBook : Book :=
  { id := 1, title := "tt", author := "aa", genre := "gg", ageGroup := "kk",
    coverImage := "cc", availabilityType := .Free, status := "pending", ownerId := 1 }

/-- The pending request user 2 already holds for dBook. -/
def dTxn : Txn :=
  { id := 1, requesterId := 2, requestedBookId := 1, ownerId := 1, type := .Free,
    offeredBookId := none, status := .pending }

/-- State in which user 2 already has a pending request for book 1. -/
def dDB : DB := { books := [dBook], transactions := [dTxn] }

/-- The duplicate request user 2 submits again. -/
def dInput : CreateTxInput :=
  { requestedBookId := 1, ownerId := 1, type := .Free, offeredBookId := none }

/-- Witness for C8: user 2 re-requesting book 1 hits a Conflict-class error and the
state is untouched. -/
theorem C8_witness :
    hasDuplicatePending dDB 2 1 = true ∧
    (createTransaction dDB 2 dInput).1 = dDB ∧
    ∃ e, (createTransaction dDB 2 dInput).2 = .error e ∧ errClass e = ErrClass.conflict := by
  have hres := @C8_duplicate_conflict dDB 2 dInput dBook (by decide) (by decide)
    (by decide) (fun hav => absurd hav (by decide))
  exact ⟨by decide, hres.1, hres.2⟩

/-- Claim C9: an Exchange-mode createRequest whose offered item equals the requested
item always fails — whatever the other fields and the state, no Request is created
and no item status changes (the same-book check, or an earlier check, fires first). -/
theorem C9_same_book_always_fails (s : DB) (u : Nat) (i : CreateTxInput)
    (hty : i.type = BType.Exchange)
    (hsame : i.offeredBookId = some i.requestedBookId) :
    (createTransaction s u i).1 = s ∧ ∃ e, (createTransaction s u i).2 = .error e := by
  cases hv : createInputOk i with
  | false =>
    rw [createTx_invalid s u i hv]
    exact ⟨rfl, _, rfl⟩
  | true =>
    cases hfb : findBook s i.requestedBookId with
    | none =>
      rw [createTx_notFound s u i hv hfb]
      exact ⟨rfl, _, rfl⟩
    | some bk =>
      by_cases hav : bk.status = "available"
      · by_cases how : bk.ownerId = i.ownerId
        · obtain ⟨e, he⟩ := exchangeCheck_same_some hty hsame hfb
          rw [createTx_exchangeErr s u i bk e hv hfb hav how he]
          exact ⟨rfl, _, rfl⟩
        · rw [createTx_ownerMismatch s u i bk hv hfb hav how]
          exact ⟨rfl, _, rfl⟩
      · rw [createTx_notAvail s u i bk hv hfb hav]
        exact ⟨rfl, _, rfl⟩

/-- Exchange request offering the very book it requests. -/
def c9Input : CreateTxInput :=
  { requestedBookId := 1, ownerId := 1, type := .Exchange, offeredBookId := some 1 }

/-- Witness for C9 at the concrete state exDB0. -/
theorem C9_witness :
    c9Input.type = BType.Exchange ∧
    c9Input.offeredBookId = some c9Input.requestedBookId ∧
    (createTransaction exDB0 2 c9Input).1 = exDB0 ∧
    ∃ e, (createTransaction exDB0 2 c9Input).2 = .error e := by
  have hres := C9_same_book_always_fails exDB0 2 c9Input (by decide) (by decide)
  exact ⟨rfl, rfl, hres.1, hres.2⟩

/-- Claim C10: updateBook never changes the lending status of any book (the PATCH schema
bookSchema.partial() has no status field) and never touches the transactions table;
among the embedded operations only createTransaction and updateTransaction write a
status of a book. -/
theorem C10_updateBook_preserves_status (s : DB) (u bid : Nat) (i : BookUpdateInput) :
    ((updateBook s u bid i).1).books.map (fun b => b.status)
        = s.books.map (fun b => b.status) ∧
    ((updateBook s u bid i).1).transactions = s.transactions := by
  unfold updateBook
  split
  · exact ⟨rfl, rfl⟩
  · split
    · exact ⟨rfl, rfl⟩
    · split
      · exact ⟨rfl, rfl⟩
      · split
        · exact ⟨rfl, rfl⟩
        · refine ⟨?_, rfl⟩
          show (s.books.map fun bk => if bk.id = bid then applyBookUpdate i bk else bk).map
            (fun b => b.status) = s.books.map (fun b => b.status)
          rw [List.map_map]
          apply List.map_congr_left
          intro a _
          show (if a.id = bid then applyBookUpdate i a else a).status = a.status
          split
          · rfl
          · rfl
